import Mathlib

/-!
# Shallow embedding of the inventory/sales core of the clothing-store manager

This file models, in Lean, the database state and the state-mutating
controller operations of the application:

* `models/inventory.py` — `Inventory`, `InventoryTransaction` (transaction types);
* `models/sale.py` — `Sale`, `SaleItem` (in-memory objects built by the UI);
* `controllers/inventory_controller.py` — `get_inventory`, `update_inventory`,
  `adjust_inventory`;
* `controllers/sale_controller.py` — `create_sale`, `get_sale` (the part
  `cancel_sale` relies on), `cancel_sale`;
* `controllers/product_controller.py` — `add_product`, `add_variant`,
  `delete_variant`;
* `controllers/customer_controller.py` — `delete_customer`.

Modelling conventions:

* The SQLite tables become lists of rows inside a `DB` structure.  Row order is
  insertion order; `fetchone` after a `SELECT ... WHERE` becomes `List.find?`,
  and `UPDATE ... WHERE` maps over every matching row, exactly as SQL does.
* Auto-increment primary keys that the code actually reads back
  (`cursor.lastrowid` for products, variants and sales) are modelled by
  per-table counters.  The surrogate `id` columns of `inventory`,
  `inventory_transactions` and `sale_items` are never consulted on any
  controller path and are omitted from the row types.
* Python `int` columns become `Int`; `REAL` money columns become `Rat`
  (the algebraic content of the price arithmetic, not IEEE rounding).
* Every controller method wraps its body in `try/except`, calls
  `self.db.commit()` once at the end and `self.db.conn.rollback()` on any
  exception.  Therefore the committed state after a failed call is exactly the
  pre-call state.  This transactional discipline is modelled by giving each
  operation the type `... → Except Err (... × DB)`: an `Except.error` result
  means the transaction was rolled back and the caller's `DB` is unchanged.
  Each `Err` constructor corresponds to one concrete `raise` site (or to the
  Python `TypeError` raised by subscripting a `None` returned by `fetchone`).
* `datetime.now().isoformat()` / `get_current_timestamp()` are modelled by a
  `now : Nat` parameter; timestamps are opaque to every property proved here.
* Storage-level failures (disk errors, UNIQUE/FOREIGN KEY violations raised by
  SQLite itself) are not modelled: on such an exception every operation rolls
  back and leaves the committed state unchanged, so they cannot affect any of
  the state properties below.
-/

namespace Store

/-- Transaction type constants of `InventoryTransaction` (`models/inventory.py`). -/
inductive TxType where
  | SALE
  | PURCHASE
  | ADJUSTMENT
  | RETURN
deriving DecidableEq, Repr

/-- A row of the `products` table. -/
structure ProductRow where
  id : Nat
  code : String
  name : String
  description : String
  categoryId : Nat
  price : Rat
  discountPercent : Rat
  discountStartDate : Option Nat
  discountEndDate : Option Nat
  createdAt : Nat
  updatedAt : Nat
deriving DecidableEq, Repr

/-- A row of the `product_variants` table. -/
structure VariantRow where
  id : Nat
  productId : Nat
  size : String
  color : String
deriving DecidableEq, Repr

/-- A row of the `inventory` table (one per variant in reachable states). -/
structure InventoryRow where
  variantId : Nat
  quantity : Int
  lastUpdated : Nat
deriving DecidableEq, Repr

/-- A row of the append-only `inventory_transactions` table. -/
structure TxRow where
  variantId : Nat
  change : Int
  txType : TxType
  referenceId : Option Nat
  txDate : Nat
  notes : Option String
deriving DecidableEq, Repr

/-- A row of the `sales` table. -/
structure SaleRow where
  id : Nat
  customerId : Option Nat
  saleDate : Nat
  paymentMethod : String
  totalAmount : Rat
deriving DecidableEq, Repr

/-- A row of the `sale_items` table. -/
structure SaleItemRow where
  saleId : Nat
  variantId : Nat
  quantity : Int
  unitPrice : Rat
  discountPercent : Rat
  subtotal : Rat
deriving DecidableEq, Repr

/-- A row of the `customers` table. -/
structure CustomerRow where
  id : Nat
  name : String
  email : Option String
  phone : Option String
  address : Option String
  createdAt : Nat
  updatedAt : Nat
deriving DecidableEq, Repr

/-- The committed database state. -/
structure DB where
  products : List ProductRow
  variants : List VariantRow
  inventory : List InventoryRow
  invTxs : List TxRow
  sales : List SaleRow
  saleItems : List SaleItemRow
  customers : List CustomerRow
  nextProductId : Nat
  nextVariantId : Nat
  nextSaleId : Nat
deriving DecidableEq, Repr

/-- The empty database right after `setup_database` (SQLite auto-increment
ids start at 1; the seeded default categories play no role in any operation
modelled here, since no controller path below reads the `categories` table). -/
def initialDB : DB :=
  { products := [], variants := [], inventory := [], invTxs := [], sales := [],
    saleItems := [], customers := [],
    nextProductId := 1, nextVariantId := 1, nextSaleId := 1 }

/-- One `Err` constructor per concrete `raise` site reached by the operations
modelled here.  `noneSubscript` stands for the Python `TypeError` raised when a
`fetchone()` result of `None` is subscripted. -/
inductive Err where
  | inventoryNotFound
  | negativeQuantity
  | productNotInInventory
  | insufficientStock (name size color : String) (available requested : Int)
  | noneSubscript
  | saleNotFound
  | duplicateVariant
  | variantHasSales
deriving DecidableEq, Repr

/-! ## Shared read helpers -/

/-- `SELECT ... FROM inventory WHERE product_variant_id = ?` + `fetchone` on a
row list: the first matching row. -/
def findInvL (inv : List InventoryRow) (vid : Nat) : Option InventoryRow :=
  inv.find? (fun r => r.variantId == vid)

/-- `SELECT * FROM inventory WHERE product_variant_id = ?` + `fetchone`. -/
def findInventory (db : DB) (vid : Nat) : Option InventoryRow :=
  findInvL db.inventory vid

/-- Signed sum of `quantity_change` over a transaction list, for one variant. -/
def txSumL (txs : List TxRow) (vid : Nat) : Int :=
  ((txs.filter (fun t => t.variantId == vid)).map (fun t => t.change)).sum

/-- Signed sum of all `InventoryTransaction.quantity_change` rows for a variant. -/
def txSum (db : DB) (vid : Nat) : Int :=
  txSumL db.invTxs vid

/-- The join `product_variants ⋈ products` on a variant id (`fetchone`):
product name, size, color — as read by `create_sale`'s error branch and by
`get_sale`'s item query. -/
def variantInfo (db : DB) (vid : Nat) : Option (String × String × String) :=
  match db.variants.find? (fun v => v.id == vid) with
  | none => none
  | some v =>
    match db.products.find? (fun p => p.id == v.productId) with
    | none => none
    | some p => some (p.name, v.size, v.color)

/-- `UPDATE inventory SET quantity = ?, last_updated = ? WHERE
product_variant_id = ?` on a row list: every matching row is overwritten. -/
def setQL (inv : List InventoryRow) (vid : Nat) (q : Int) (now : Nat) :
    List InventoryRow :=
  inv.map (fun r =>
    if r.variantId == vid then { r with quantity := q, lastUpdated := now } else r)

/-- `UPDATE inventory SET quantity = ?, last_updated = ? WHERE product_variant_id = ?`. -/
def setInventoryQuantity (db : DB) (vid : Nat) (q : Int) (now : Nat) : DB :=
  { db with inventory := setQL db.inventory vid q now }

/-! ## InventoryController (`controllers/inventory_controller.py`) -/

/-- `InventoryController.update_inventory`: read the current quantity, write the
new quantity, and append one transaction whose `quantity_change` is the delta.
Note that no bound is imposed on `new_quantity`. -/
def update_inventory (db : DB) (now : Nat) (vid : Nat) (new_quantity : Int)
    (ttype : TxType) (reference_id : Option Nat) (notes : Option String) :
    Except Err DB :=
  match findInventory db vid with
  | none => .error .inventoryNotFound
  | some inv =>
    let quantity_change := new_quantity - inv.quantity
    let db1 := setInventoryQuantity db vid new_quantity now
    .ok { db1 with invTxs := db1.invTxs ++
      [{ variantId := vid, change := quantity_change, txType := ttype,
         referenceId := reference_id, txDate := now, notes := notes }] }

/-- `InventoryController.adjust_inventory`: refuse to drive the quantity below
zero, otherwise delegate to `update_inventory` with type `ADJUSTMENT`. -/
def adjust_inventory (db : DB) (now : Nat) (vid : Nat) (quantity_change : Int)
    (notes : Option String) : Except Err DB :=
  match findInventory db vid with
  | none => .error .inventoryNotFound
  | some inv =>
    let new_quantity := inv.quantity + quantity_change
    if new_quantity < 0 then .error .negativeQuantity
    else update_inventory db now vid new_quantity .ADJUSTMENT none notes

/-! ## The in-memory `Sale` / `SaleItem` objects (`models/sale.py`) -/

/-- The `quantity * unit_price * (1 - discount_percent / 100)` formula of
`SaleItem.calculate_subtotal`. -/
def calculate_subtotal (quantity : Int) (unit_price discount_percent : Rat) : Rat :=
  (quantity : Rat) * unit_price * (1 - discount_percent / 100)

/-- The in-memory `SaleItem` object.  (`sale_id` is assigned by `create_sale`
just before the row insert and is not part of the caller-visible object;
`id`, `product_name` and `variant_info` are display-only.) -/
structure SaleItem where
  product_variant_id : Nat
  quantity : Int
  unit_price : Rat
  discount_percent : Rat
  subtotal : Rat
deriving DecidableEq, Repr

/-- `SaleItem.__init__`: the stored subtotal is the constructor argument when it
is positive, and `calculate_subtotal` otherwise (in particular when it is left
at its default `0.0`, i.e. not pre-supplied). -/
def SaleItem.mkItem (product_variant_id : Nat) (quantity : Int)
    (unit_price discount_percent subtotal : Rat) : SaleItem :=
  { product_variant_id, quantity, unit_price, discount_percent,
    subtotal := if subtotal > 0 then subtotal
                else calculate_subtotal quantity unit_price discount_percent }

/-- The in-memory `Sale` object. -/
structure Sale where
  customer_id : Option Nat
  sale_date : Nat
  payment_method : String
  total_amount : Rat
  items : List SaleItem
deriving DecidableEq, Repr

/-- `Sale.__init__` (`items` starts empty). -/
def Sale.mkSale (customer_id : Option Nat) (sale_date : Nat)
    (payment_method : String) (total_amount : Rat) : Sale :=
  { customer_id, sale_date, payment_method, total_amount, items := [] }

/-- The loop body of `Sale.add_item`: the first item with the same variant has
its quantity bumped and its subtotal recomputed (`recalculate_subtotal`);
otherwise the new item is appended. -/
def addItemMerge : List SaleItem → SaleItem → List SaleItem
  | [], it => [it]
  | x :: xs, it =>
    if x.product_variant_id = it.product_variant_id then
      { x with quantity := x.quantity + it.quantity,
               subtotal := calculate_subtotal (x.quantity + it.quantity)
                 x.unit_price x.discount_percent } :: xs
    else x :: addItemMerge xs it

/-- `Sale.recalculate_total`: the sum of the items' subtotals. -/
def sumSubtotals (items : List SaleItem) : Rat :=
  (items.map (fun it => it.subtotal)).sum

/-- `Sale.add_item` (both branches end by calling `recalculate_total`). -/
def Sale.add_item (s : Sale) (it : SaleItem) : Sale :=
  let items := addItemMerge s.items it
  { s with items := items, total_amount := sumSubtotals items }

/-! ## SaleController (`controllers/sale_controller.py`) -/

/-- The pre-validation loop of `create_sale`: for each item in order, read the
current inventory quantity; raise "Producto no encontrado en el inventario"
when there is no row, and the insufficient-stock error (decorated with the
product name, size and color fetched via the variant/product join) when
`current_quantity < item.quantity`.  No write happens in this loop. -/
def validateItems (db : DB) : List SaleItem → Except Err Unit
  | [] => .ok ()
  | it :: rest =>
    match findInventory db it.product_variant_id with
    | none => .error .productNotInInventory
    | some inv =>
      if inv.quantity < it.quantity then
        match variantInfo db it.product_variant_id with
        | none => .error .noneSubscript
        | some info =>
          .error (.insufficientStock info.1 info.2.1 info.2.2 inv.quantity it.quantity)
      else validateItems db rest

/-- The `sale_items` row inserted by `create_sale` for one item. -/
def itemRow (sid : Nat) (it : SaleItem) : SaleItemRow :=
  { saleId := sid, variantId := it.product_variant_id, quantity := it.quantity,
    unitPrice := it.unit_price, discountPercent := it.discount_percent,
    subtotal := it.subtotal }

/-- The SALE transaction row recorded by `create_sale` for one item. -/
def saleTx (sid now : Nat) (it : SaleItem) : TxRow :=
  { variantId := it.product_variant_id, change := -it.quantity, txType := .SALE,
    referenceId := some sid, txDate := now,
    notes := some ("Venta #" ++ toString sid) }

/-- The writes `create_sale` performs for one item once the quantity row
`inv` has been read back: insert the `sale_items` row, write
`current - quantity`, and append one SALE transaction with
`quantity_change = -quantity`. -/
def saleStep (sid now : Nat) (db : DB) (it : SaleItem) (inv : InventoryRow) : DB :=
  let db1 := { db with saleItems := db.saleItems ++ [itemRow sid it] }
  let db2 := setInventoryQuantity db1 it.product_variant_id (inv.quantity - it.quantity) now
  { db2 with invTxs := db2.invTxs ++ [saleTx sid now it] }

/-- The per-item write loop of `create_sale`.  (In the source the `sale_items`
INSERT precedes the quantity SELECT; the INSERT leaves the `inventory` table
untouched, so the SELECT reads the same row either way.) -/
def writeSaleItems (sid now : Nat) : DB → List SaleItem → Except Err DB
  | db, [] => .ok db
  | db, it :: rest =>
    match findInventory db it.product_variant_id with
    | none => .error .noneSubscript
    | some inv => writeSaleItems sid now (saleStep sid now db it inv) rest

/-- The `sales` row inserted by `create_sale` (id = `cursor.lastrowid`;
the object's `total_amount` is persisted verbatim). -/
def saleRowOf (db : DB) (sale : Sale) : SaleRow :=
  { id := db.nextSaleId, customerId := sale.customer_id, saleDate := sale.sale_date,
    paymentMethod := sale.payment_method, totalAmount := sale.total_amount }

/-- The state right after `create_sale`'s `INSERT INTO sales`. -/
def dbWithSaleRow (db : DB) (sale : Sale) : DB :=
  { db with sales := db.sales ++ [saleRowOf db sale], nextSaleId := db.nextSaleId + 1 }

/-- `SaleController.create_sale`: validate every item against current stock,
insert the `sales` row, then insert the item rows and debit inventory; returns
the new sale id.  Any exception rolls the whole transaction back (modelled by
the propagated `Except.error`). -/
def create_sale (db : DB) (now : Nat) (sale : Sale) : Except Err (Nat × DB) :=
  match validateItems db sale.items with
  | .error e => .error e
  | .ok _ =>
    match writeSaleItems db.nextSaleId now (dbWithSaleRow db sale) sale.items with
    | .error e => .error e
    | .ok db2 => .ok (db.nextSaleId, db2)

/-- The item query of `get_sale`: `sale_items` rows of the sale joined (inner
join, in table order) to `product_variants` and `products` — rows whose
variant or product is missing drop out of the join. -/
def loadSaleItems (db : DB) (sid : Nat) : List SaleItemRow :=
  (db.saleItems.filter (fun it => it.saleId == sid)).filter
    (fun it => (variantInfo db it.variantId).isSome)

/-- The RETURN transaction row recorded by `cancel_sale` for one loaded item. -/
def returnTx (sid now : Nat) (it : SaleItemRow) : TxRow :=
  { variantId := it.variantId, change := it.quantity, txType := .RETURN,
    referenceId := some sid, txDate := now,
    notes := some ("Cancelacion de venta #" ++ toString sid) }

/-- The writes `cancel_sale` performs for one loaded item once the quantity
row `inv` has been read back: write `current + quantity` and append one RETURN
transaction with `quantity_change = quantity`. -/
def returnStep (sid now : Nat) (db : DB) (it : SaleItemRow) (inv : InventoryRow) : DB :=
  let db1 := setInventoryQuantity db it.variantId (inv.quantity + it.quantity) now
  { db1 with invTxs := db1.invTxs ++ [returnTx sid now it] }

/-- The per-item restore loop of `cancel_sale`. -/
def restoreItems (sid now : Nat) : DB → List SaleItemRow → Except Err DB
  | db, [] => .ok db
  | db, it :: rest =>
    match findInventory db it.variantId with
    | none => .error .noneSubscript
    | some inv => restoreItems sid now (returnStep sid now db it inv) rest

/-- `SaleController.cancel_sale`: load the sale through `get_sale` (raising
"Venta no encontrada" when absent), credit stock back for each loaded item,
then delete the `sale_items` rows and the `sales` row. -/
def cancel_sale (db : DB) (now : Nat) (sid : Nat) : Except Err DB :=
  match db.sales.find? (fun s => s.id == sid) with
  | none => .error .saleNotFound
  | some _ =>
    match restoreItems sid now db (loadSaleItems db sid) with
    | .error e => .error e
    | .ok db1 =>
      let db2 := { db1 with saleItems := db1.saleItems.filter (fun it => !(it.saleId == sid)) }
      .ok { db2 with sales := db2.sales.filter (fun s => !(s.id == sid)) }

/-! ## ProductController (`controllers/product_controller.py`) -/

/-- The fields of the in-memory `Product` object that `add_product` persists. -/
structure ProductArg where
  code : String
  name : String
  description : String
  category_id : Nat
  price : Rat
  discount_percent : Rat
  discount_start_date : Option Nat
  discount_end_date : Option Nat
deriving DecidableEq, Repr

/-- The in-memory `ProductVariant` object; `models/product.py` initializes
`inventory_quantity` to `0`, and callers may overwrite it before calling
`add_variant`. -/
structure VariantArg where
  product_id : Nat
  size : String
  color : String
  inventory_quantity : Int
deriving DecidableEq, Repr

/-- The per-variant loop of `add_product`: insert the `product_variants` row,
then an `inventory` row with quantity `0` (the literal in the INSERT). -/
def insertVariantsZero (now pid : Nat) : DB → List VariantArg → DB
  | db, [] => db
  | db, v :: rest =>
    let vid := db.nextVariantId
    let vrow : VariantRow := { id := vid, productId := pid, size := v.size, color := v.color }
    let irow : InventoryRow := { variantId := vid, quantity := 0, lastUpdated := now }
    let db1 := { db with variants := db.variants ++ [vrow], nextVariantId := vid + 1 }
    let db2 := { db1 with inventory := db1.inventory ++ [irow] }
    insertVariantsZero now pid db2 rest

/-- `ProductController.add_product`: insert the product row, then each variant
with a zero-quantity inventory row, all in one transaction. -/
def add_product (db : DB) (now : Nat) (p : ProductArg) (variants : List VariantArg) :
    Nat × DB :=
  let pid := db.nextProductId
  let prow : ProductRow :=
    { id := pid, code := p.code, name := p.name, description := p.description,
      categoryId := p.category_id, price := p.price,
      discountPercent := p.discount_percent,
      discountStartDate := p.discount_start_date,
      discountEndDate := p.discount_end_date,
      createdAt := now, updatedAt := now }
  let db1 := { db with products := db.products ++ [prow], nextProductId := pid + 1 }
  (pid, insertVariantsZero now pid db1 variants)

/-- `ProductController.add_variant`: reject a duplicate (product, size, color)
tuple, insert the `product_variants` row, then an `inventory` row holding
`variant.inventory_quantity`.  Note that no `inventory_transactions` row is
recorded, whatever the initial quantity. -/
def add_variant (db : DB) (now : Nat) (v : VariantArg) : Except Err (Nat × DB) :=
  match db.variants.find? (fun w =>
      w.productId == v.product_id && w.size == v.size && w.color == v.color) with
  | some _ => .error .duplicateVariant
  | none =>
    let vid := db.nextVariantId
    let vrow : VariantRow := { id := vid, productId := v.product_id, size := v.size, color := v.color }
    let irow : InventoryRow := { variantId := vid, quantity := v.inventory_quantity, lastUpdated := now }
    let db1 := { db with variants := db.variants ++ [vrow], nextVariantId := vid + 1 }
    let db2 := { db1 with inventory := db1.inventory ++ [irow] }
    .ok (vid, db2)

/-- `ProductController.delete_variant`: blocked while any `sale_items` row
references the variant; otherwise delete the inventory row(s), then the
variant row. -/
def delete_variant (db : DB) (vid : Nat) : Except Err DB :=
  if ((db.saleItems.filter (fun it => it.variantId == vid)).length > 0) then
    .error .variantHasSales
  else
    let db1 := { db with inventory := db.inventory.filter (fun r => !(r.variantId == vid)) }
    .ok { db1 with variants := db1.variants.filter (fun v => !(v.id == vid)) }

/-! ## CustomerController (`controllers/customer_controller.py`) -/

/-- `CustomerController.delete_customer`: when the customer has sales, null out
`sales.customer_id` for them instead of blocking; then delete the customer row.
The Python method then returns `True` unconditionally. -/
def delete_customer (db : DB) (cid : Nat) : DB :=
  let db1 :=
    if ((db.sales.filter (fun s => s.customerId == some cid)).length > 0) then
      { db with sales := db.sales.map (fun s =>
          if s.customerId == some cid then { s with customerId := none } else s) }
    else db
  { db1 with customers := db1.customers.filter (fun c => !(c.id == cid)) }

/-! ## The ledger invariant and the reachable states -/

/-- The cross-entity key invariant of the specification: every `inventory`
row's quantity equals the signed sum of the transaction rows for its variant. -/
def ledgerOK (inv : List InventoryRow) (txs : List TxRow) : Prop :=
  ∀ r ∈ inv, r.quantity = txSumL txs r.variantId

instance (inv : List InventoryRow) (txs : List TxRow) : Decidable (ledgerOK inv txs) :=
  inferInstanceAs (Decidable (∀ r ∈ inv, r.quantity = txSumL txs r.variantId))

/-- The ledger invariant on a database state. -/
def ledgerInvariant (db : DB) : Prop :=
  ledgerOK db.inventory db.invTxs

instance (db : DB) : Decidable (ledgerInvariant db) :=
  inferInstanceAs (Decidable (ledgerOK db.inventory db.invTxs))

/-- Database states reachable from the fresh store through the state-mutating
operations modelled here (only committed, i.e. `ok`, results change state). -/
inductive Reachable : DB → Prop where
  | init : Reachable initialDB
  | updateInv (db : DB) (now vid : Nat) (q : Int) (t : TxType)
      (ref : Option Nat) (notes : Option String) (db' : DB) :
      Reachable db → update_inventory db now vid q t ref notes = .ok db' →
      Reachable db'
  | adjustInv (db : DB) (now vid : Nat) (d : Int) (notes : Option String) (db' : DB) :
      Reachable db → adjust_inventory db now vid d notes = .ok db' → Reachable db'
  | saleCreated (db : DB) (now : Nat) (s : Sale) (sid : Nat) (db' : DB) :
      Reachable db → create_sale db now s = .ok (sid, db') → Reachable db'
  | saleCancelled (db : DB) (now sid : Nat) (db' : DB) :
      Reachable db → cancel_sale db now sid = .ok db' → Reachable db'
  | productAdded (db : DB) (now : Nat) (p : ProductArg) (vs : List VariantArg) :
      Reachable db → Reachable (add_product db now p vs).2
  | variantAdded (db : DB) (now : Nat) (v : VariantArg) (vid : Nat) (db' : DB) :
      Reachable db → add_variant db now v = .ok (vid, db') → Reachable db'
  | variantDeleted (db : DB) (vid : Nat) (db' : DB) :
      Reachable db → delete_variant db vid = .ok db' → Reachable db'
  | customerDeleted (db : DB) (cid : Nat) :
      Reachable db → Reachable (delete_customer db cid)

/-! ## Abstractions used to state and prove the properties -/

/-- The variant ids of an inventory table, in row order. -/
def idsOf (inv : List InventoryRow) : List Nat :=
  inv.map (fun r => r.variantId)

/-- The (variant id, quantity) projection of an inventory table, in row order
(forgetting only the `last_updated` timestamps). -/
def pairsOf (inv : List InventoryRow) : List (Nat × Int) :=
  inv.map (fun r => (r.variantId, r.quantity))

/-- Adjust, on the (variant, quantity) projection, every row of variant `v`
by `d`. -/
def adjP (l : List (Nat × Int)) (v : Nat) (d : Int) : List (Nat × Int) :=
  l.map (fun p => if p.1 == v then (p.1, p.2 + d) else p)

/-- Apply a list of per-variant adjustments in order. -/
def adjMany (l : List (Nat × Int)) (ds : List (Nat × Int)) : List (Nat × Int) :=
  ds.foldl (fun acc p => adjP acc p.1 p.2) l

/-- Negate every adjustment of a per-variant adjustment list. -/
def negsP (ds : List (Nat × Int)) : List (Nat × Int) :=
  ds.map (fun p => (p.1, -p.2))

/-- The per-item consistency of an in-memory sale: every item's subtotal is its
own `quantity × unit_price × (1 − discount_percent/100)` and the total is the
sum of the subtotals.  This is what `Sale.add_item` maintains. -/
def saleConsistent (s : Sale) : Prop :=
  (∀ it ∈ s.items, it.subtotal =
    calculate_subtotal it.quantity it.unit_price it.discount_percent) ∧
  s.total_amount = sumSubtotals s.items

instance (s : Sale) : Decidable (saleConsistent s) :=
  inferInstanceAs (Decidable (_ ∧ _))

/-- Fresh-id condition: every transaction row references a variant id below the
variant auto-increment counter.  SQLite's AUTOINCREMENT-style id handing makes
this hold in every reachable state; it rules out a new variant "inheriting"
dangling transaction rows. -/
def txIdsFresh (db : DB) : Prop :=
  ∀ t ∈ db.invTxs, t.variantId < db.nextVariantId

instance (db : DB) : Decidable (txIdsFresh db) :=
  inferInstanceAs (Decidable (∀ t ∈ db.invTxs, t.variantId < db.nextVariantId))

/-- Fresh-id condition for sales: every `sales` row and every `sale_items` row
sits below the sale auto-increment counter (true of every reachable state). -/
def saleIdsFresh (db : DB) : Prop :=
  (∀ s ∈ db.sales, s.id < db.nextSaleId) ∧
  (∀ it ∈ db.saleItems, it.saleId < db.nextSaleId)

instance (db : DB) : Decidable (saleIdsFresh db) :=
  inferInstanceAs (Decidable (_ ∧ _))

/-! ## Concrete states, used in the counterexamples and witnesses

All of them are built by running the modelled operations from `initialDB`,
so each sits inside `Reachable`. -/

/-- A product (a shirt at price 20, no discount). -/
def exProduct : ProductArg :=
  { code := "C1", name := "Camisa", description := "", category_id := 1,
    price := 20, discount_percent := 0, discount_start_date := none,
    discount_end_date := none }

/-- `add_product` of the shirt with no variants: product id 1. -/
def exDBp : DB := (add_product initialDB 0 exProduct []).2

/-- Variant argument (M / Rojo) with the default initial quantity 0. -/
def exVariantM : VariantArg :=
  { product_id := 1, size := "M", color := "Rojo", inventory_quantity := 0 }

/-- Variant argument (L / Rojo) with the default initial quantity 0. -/
def exVariantL : VariantArg :=
  { product_id := 1, size := "L", color := "Rojo", inventory_quantity := 0 }

/-- Variant argument (G / Azul) carrying a caller-supplied initial quantity 5. -/
def exVariantG5 : VariantArg :=
  { product_id := 1, size := "G", color := "Azul", inventory_quantity := 5 }

/-- `add_variant` of M/Rojo on `exDBp`: variant id 1, inventory quantity 0. -/
def exDBv : DB :=
  match add_variant exDBp 0 exVariantM with
  | .ok (_, d) => d
  | .error _ => initialDB

/-- `adjust_inventory` variant 1 by +10: quantity 10, one ADJUSTMENT +10. -/
def exDB10 : DB :=
  match adjust_inventory exDBv 1 1 10 none with
  | .ok d => d
  | .error _ => initialDB

/-- `adjust_inventory` variant 1 by +3: quantity 3, one ADJUSTMENT +3. -/
def exDB3 : DB :=
  match adjust_inventory exDBv 1 1 3 none with
  | .ok d => d
  | .error _ => initialDB

/-- `add_variant` of L/Rojo on `exDBv`: variant id 2, quantity 0. -/
def exDBvv : DB :=
  match add_variant exDBv 0 exVariantL with
  | .ok (_, d) => d
  | .error _ => initialDB

/-- Variants 1 and 2 stocked at 10 and 3 (two ADJUSTMENT transactions). -/
def exDBstock : DB :=
  match adjust_inventory exDBvv 1 1 10 none with
  | .ok d =>
    match adjust_inventory d 1 2 3 none with
    | .ok d2 => d2
    | .error _ => initialDB
  | .error _ => initialDB

/-- `add_variant` with the non-zero initial quantity 5 on `exDBp`:
variant id 1, inventory quantity 5, and no transaction row. -/
def exDBg5 : DB :=
  match add_variant exDBp 0 exVariantG5 with
  | .ok (_, d) => d
  | .error _ => initialDB

/-- `update_inventory` of variant 1 straight to −5 (no check stops it). -/
def exDBneg : DB :=
  match update_inventory exDBv 2 1 (-5) TxType.ADJUSTMENT none none with
  | .ok d => d
  | .error _ => initialDB

/-- A sale of 4 units of variant 1 at 20 each (subtotal 80, total 80). -/
def exSaleOK : Sale :=
  { customer_id := none, sale_date := 2, payment_method := "EFECTIVO",
    total_amount := 80,
    items := [{ product_variant_id := 1, quantity := 4, unit_price := 20,
                discount_percent := 0, subtotal := 80 }] }

/-- The state after `create_sale exDB10 2 exSaleOK` (sale id 1, quantity 6). -/
def exDBsold : DB :=
  match create_sale exDB10 2 exSaleOK with
  | .ok (_, d) => d
  | .error _ => initialDB

/-- Scenario C: the first item (4 of variant 1, stock 10) passes validation,
the second (5 of variant 2, stock 3) does not. -/
def exSaleC : Sale :=
  { customer_id := none, sale_date := 2, payment_method := "EFECTIVO",
    total_amount := 0,
    items := [{ product_variant_id := 1, quantity := 4, unit_price := 20,
                discount_percent := 0, subtotal := 80 },
              { product_variant_id := 2, quantity := 5, unit_price := 20,
                discount_percent := 0, subtotal := 100 }] }

/-- A sale whose object-level total (5) disagrees with its single item's
subtotal formula (2 × 20 × 1 = 40): the Python `Sale` object never forbids
this state, and `create_sale` persists it verbatim. -/
def exSaleBadTotal : Sale :=
  { customer_id := none, sale_date := 2, payment_method := "EFECTIVO",
    total_amount := 5,
    items := [{ product_variant_id := 1, quantity := 2, unit_price := 20,
                discount_percent := 0, subtotal := 40 }] }

/-- A one-item consistent sale with discount 0 and quantity 1 (subtotal =
1 × 20 × (1 − 0/100) = 20, total 20). -/
def exSaleUnit : Sale :=
  { customer_id := none, sale_date := 2, payment_method := "EFECTIVO",
    total_amount := 20,
    items := [{ product_variant_id := 1, quantity := 1, unit_price := 20,
                discount_percent := 0, subtotal := 20 }] }

/-- The state after persisting `exSaleBadTotal` on `exDB10`. -/
def exDBbadTotal : DB :=
  match create_sale exDB10 2 exSaleBadTotal with
  | .ok (_, d) => d
  | .error _ => initialDB

/-- A sale whose first item over-requests stock (5 > 3 of variant 1) and whose
second item references variant 999, which has no inventory row. -/
def exSaleMixed : Sale :=
  { customer_id := none, sale_date := 2, payment_method := "EFECTIVO",
    total_amount := 0,
    items := [{ product_variant_id := 1, quantity := 5, unit_price := 20,
                discount_percent := 0, subtotal := 100 },
              { product_variant_id := 999, quantity := 1, unit_price := 20,
                discount_percent := 0, subtotal := 20 }] }

/-- An empty-items sale carrying a caller-supplied total of 5. -/
def exSaleEmpty : Sale := Sale.mkSale none 2 "EFECTIVO" 5

/-- A sale whose first item passes the stock check (2 ≤ 3 of variant 1) and
whose second item references variant 999, which has no inventory row. -/
def exSaleNF : Sale :=
  { customer_id := none, sale_date := 2, payment_method := "EFECTIVO",
    total_amount := 0,
    items := [{ product_variant_id := 1, quantity := 2, unit_price := 20,
                discount_percent := 0, subtotal := 40 },
              { product_variant_id := 999, quantity := 1, unit_price := 20,
                discount_percent := 0, subtotal := 20 }] }

/-- A directly-given state with one customer (id 1) referenced by one sale:
used to exercise `delete_customer`. -/
def exDBcust : DB :=
  { products := [], variants := [], inventory := [], invTxs := [],
    sales := [{ id := 1, customerId := some 1, saleDate := 0,
                paymentMethod := "EFECTIVO", totalAmount := 100 }],
    saleItems := [{ saleId := 1, variantId := 7, quantity := 2, unitPrice := 50,
                    discountPercent := 0, subtotal := 100 }],
    customers := [{ id := 1, name := "Ana", email := none, phone := none,
                    address := none, createdAt := 0, updatedAt := 0 }],
    nextProductId := 1, nextVariantId := 1, nextSaleId := 2 }

/-! ## Ledger bookkeeping lemmas -/

theorem txSumL_append (l1 l2 : List TxRow) (v : Nat) :
    txSumL (l1 ++ l2) v = txSumL l1 v + txSumL l2 v := by
  simp [txSumL, List.filter_append]

theorem txSumL_single (t : TxRow) (v : Nat) :
    txSumL [t] v = if t.variantId == v then t.change else 0 := by
  by_cases h : t.variantId == v <;> simp [txSumL, List.filter, h]

theorem txSumL_eq_zero (txs : List TxRow) (v : Nat)
    (h : ∀ t ∈ txs, t.variantId ≠ v) : txSumL txs v = 0 := by
  have hnil : txs.filter (fun t => t.variantId == v) = [] := by
    rw [List.filter_eq_nil_iff]
    intro t ht
    simpa using h t ht
  simp [txSumL, hnil]

/-- The read-modify-write-and-log step shared by `update_inventory`,
`writeSaleItems` and `restoreItems` preserves the ledger equality, whatever
quantity it writes, because the logged `quantity_change` is exactly the delta
against the quantity read back. -/
theorem ledgerOK_write (inv : List InventoryRow) (txs : List TxRow) (v : Nat)
    (q : Int) (now : Nat) (r0 : InventoryRow) (t : TxRow)
    (hfind : findInvL inv v = some r0)
    (hok : ledgerOK inv txs)
    (hv : t.variantId = v) (hc : t.change = q - r0.quantity) :
    ledgerOK (setQL inv v q now) (txs ++ [t]) := by
  have hr0mem : r0 ∈ inv := List.mem_of_find?_eq_some hfind
  have hr0v : r0.variantId = v := by simpa using List.find?_some hfind
  have hsum0 : txSumL txs v = r0.quantity := by
    have h1 := hok r0 hr0mem
    rw [hr0v] at h1
    exact h1.symm
  intro r' hr'
  rcases List.mem_map.1 hr' with ⟨r, hr, hrr⟩
  by_cases hcase : r.variantId = v
  · have hr'eq : r' = { r with quantity := q, lastUpdated := now } := by
      rw [← hrr]; simp [hcase]
    rw [hr'eq]
    simp only [txSumL_append, txSumL_single]
    simp [hcase, hv, hc]
    omega
  · have hr'eq : r' = r := by rw [← hrr]; simp [hcase]
    rw [hr'eq]
    simp only [txSumL_append, txSumL_single]
    have hne : (t.variantId == r.variantId) = false := by
      rw [hv]
      simp
      exact fun hh => hcase hh.symm
    rw [hne]
    simp [hok r hr]

theorem update_inventory_ledger (db : DB) (now vid : Nat) (q : Int) (t : TxType)
    (ref : Option Nat) (notes : Option String) (db' : DB)
    (hok : ledgerInvariant db)
    (h : update_inventory db now vid q t ref notes = .ok db') :
    ledgerInvariant db' := by
  unfold update_inventory at h
  cases hfind : findInventory db vid with
  | none => rw [hfind] at h; cases h
  | some inv =>
    rw [hfind] at h
    simp only at h
    injection h with h
    subst h
    exact ledgerOK_write db.inventory db.invTxs vid q now inv _ hfind hok rfl rfl

theorem adjust_inventory_ledger (db : DB) (now vid : Nat) (d : Int)
    (notes : Option String) (db' : DB)
    (hok : ledgerInvariant db)
    (h : adjust_inventory db now vid d notes = .ok db') :
    ledgerInvariant db' := by
  unfold adjust_inventory at h
  cases hfind : findInventory db vid with
  | none => rw [hfind] at h; cases h
  | some inv =>
    rw [hfind] at h
    simp only at h
    by_cases hneg : inv.quantity + d < 0
    · rw [if_pos hneg] at h; cases h
    · rw [if_neg hneg] at h
      exact update_inventory_ledger db now vid (inv.quantity + d) .ADJUSTMENT none notes db' hok h

theorem writeSaleItems_ledger (sid now : Nat) (items : List SaleItem) :
    ∀ (db db' : DB), ledgerInvariant db →
      writeSaleItems sid now db items = .ok db' → ledgerInvariant db' := by
  induction items with
  | nil =>
    intro db db' hok h
    unfold writeSaleItems at h
    injection h with h
    rw [← h]
    exact hok
  | cons it rest ih =>
    intro db db' hok h
    unfold writeSaleItems at h
    cases hfind : findInventory db it.product_variant_id with
    | none => rw [hfind] at h; cases h
    | some inv =>
      rw [hfind] at h
      simp only at h
      apply ih _ _ _ h
      refine ledgerOK_write db.inventory db.invTxs it.product_variant_id
        (inv.quantity - it.quantity) now inv (saleTx sid now it) hfind hok rfl ?_
      simp [saleTx]

theorem restoreItems_ledger (sid now : Nat) (rows : List SaleItemRow) :
    ∀ (db db' : DB), ledgerInvariant db →
      restoreItems sid now db rows = .ok db' → ledgerInvariant db' := by
  induction rows with
  | nil =>
    intro db db' hok h
    unfold restoreItems at h
    injection h with h
    rw [← h]
    exact hok
  | cons it rest ih =>
    intro db db' hok h
    unfold restoreItems at h
    cases hfind : findInventory db it.variantId with
    | none => rw [hfind] at h; cases h
    | some inv =>
      rw [hfind] at h
      simp only at h
      apply ih _ _ _ h
      refine ledgerOK_write db.inventory db.invTxs it.variantId
        (inv.quantity + it.quantity) now inv (returnTx sid now it) hfind hok rfl ?_
      simp [returnTx]

theorem create_sale_ledger (db : DB) (now : Nat) (s : Sale) (sid : Nat) (db' : DB)
    (hok : ledgerInvariant db)
    (h : create_sale db now s = .ok (sid, db')) : ledgerInvariant db' := by
  unfold create_sale at h
  cases hv : validateItems db s.items with
  | error e => rw [hv] at h; cases h
  | ok u =>
    rw [hv] at h
    cases hw : writeSaleItems db.nextSaleId now (dbWithSaleRow db s) s.items with
    | error e => rw [hw] at h; cases h
    | ok db2 =>
      rw [hw] at h
      injection h with h
      have hdb2 : db2 = db' := (Prod.mk.injEq _ _ _ _ |>.mp h).2
      rw [← hdb2]
      have hok1 : ledgerInvariant (dbWithSaleRow db s) := hok
      exact writeSaleItems_ledger db.nextSaleId now s.items (dbWithSaleRow db s) db2 hok1 hw

theorem cancel_sale_ledger (db : DB) (now sid : Nat) (db' : DB)
    (hok : ledgerInvariant db)
    (h : cancel_sale db now sid = .ok db') : ledgerInvariant db' := by
  unfold cancel_sale at h
  cases hf : db.sales.find? (fun s => s.id == sid) with
  | none => rw [hf] at h; cases h
  | some srow =>
    rw [hf] at h
    cases hr : restoreItems sid now db (loadSaleItems db sid) with
    | error e => rw [hr] at h; cases h
    | ok db1 =>
      rw [hr] at h
      simp only at h
      injection h with h
      have hled1 : ledgerInvariant db1 := restoreItems_ledger sid now _ db db1 hok hr
      rw [← h]
      intro r hrmem
      have hmem1 : r ∈ db1.inventory := hrmem
      exact hled1 r hmem1

theorem insertVariantsZero_ledger (now pid : Nat) (vs : List VariantArg) :
    ∀ db : DB, ledgerInvariant db → txIdsFresh db →
      ledgerInvariant (insertVariantsZero now pid db vs) := by
  induction vs with
  | nil => intro db hok _; exact hok
  | cons v rest ih =>
    intro db hok hfresh
    unfold insertVariantsZero
    simp only
    apply ih
    · intro r hr
      rcases List.mem_append.1 hr with hr1 | hr1
      · exact hok r hr1
      · have hreq : r = { variantId := db.nextVariantId, quantity := 0, lastUpdated := now } :=
          List.mem_singleton.1 hr1
        rw [hreq]
        have hz := txSumL_eq_zero db.invTxs db.nextVariantId
          (fun t ht => Nat.ne_of_lt (hfresh t ht))
        simpa using hz.symm
    · intro t ht
      exact Nat.lt_succ_of_lt (hfresh t ht)

theorem add_product_ledger (db : DB) (now : Nat) (p : ProductArg)
    (vs : List VariantArg)
    (hok : ledgerInvariant db) (hfresh : txIdsFresh db) :
    ledgerInvariant (add_product db now p vs).2 := by
  unfold add_product
  simp only
  exact insertVariantsZero_ledger now db.nextProductId vs _ hok hfresh

theorem add_variant_ledger (db : DB) (now : Nat) (v : VariantArg) (vid : Nat)
    (db' : DB)
    (hok : ledgerInvariant db) (hfresh : txIdsFresh db)
    (hq : v.inventory_quantity = 0)
    (h : add_variant db now v = .ok (vid, db')) : ledgerInvariant db' := by
  unfold add_variant at h
  cases hd : db.variants.find? (fun w =>
      w.productId == v.product_id && w.size == v.size && w.color == v.color) with
  | some w => rw [hd] at h; cases h
  | none =>
    rw [hd] at h
    simp only at h
    injection h with h
    have hdb : _ = db' := (Prod.mk.injEq _ _ _ _ |>.mp h).2
    rw [← hdb]
    intro r hr
    rcases List.mem_append.1 hr with hr1 | hr1
    · exact hok r hr1
    · rw [List.mem_singleton.1 hr1]
      have hz := txSumL_eq_zero db.invTxs db.nextVariantId
        (fun t ht => Nat.ne_of_lt (hfresh t ht))
      simpa [hq] using hz.symm

theorem delete_variant_ledger (db : DB) (vid : Nat) (db' : DB)
    (hok : ledgerInvariant db) (h : delete_variant db vid = .ok db') :
    ledgerInvariant db' := by
  unfold delete_variant at h
  by_cases hc : (db.saleItems.filter (fun it => it.variantId == vid)).length > 0
  · rw [if_pos hc] at h; cases h
  · rw [if_neg hc] at h
    injection h with h
    rw [← h]
    intro r hr
    exact hok r (List.mem_of_mem_filter hr)

/-! ## Quantity-projection lemmas for the sale round-trip -/

theorem setQL_cons (r : InventoryRow) (rest : List InventoryRow) (v : Nat)
    (q : Int) (now : Nat) :
    setQL (r :: rest) v q now =
      (if r.variantId == v then { r with quantity := q, lastUpdated := now } else r)
        :: setQL rest v q now := rfl

theorem pairsOf_cons (r : InventoryRow) (rest : List InventoryRow) :
    pairsOf (r :: rest) = (r.variantId, r.quantity) :: pairsOf rest := rfl

theorem adjP_cons (p : Nat × Int) (l : List (Nat × Int)) (v : Nat) (d : Int) :
    adjP (p :: l) v d = (if p.1 == v then (p.1, p.2 + d) else p) :: adjP l v d := rfl

theorem idsOf_setQL (inv : List InventoryRow) (v : Nat) (q : Int) (now : Nat) :
    idsOf (setQL inv v q now) = idsOf inv := by
  unfold idsOf setQL
  rw [List.map_map]
  apply List.map_congr_left
  intro r _
  simp only [Function.comp]
  split <;> rfl

theorem setQL_of_no_match (inv : List InventoryRow) (v : Nat) (q : Int) (now : Nat)
    (h : ∀ x ∈ inv, (x.variantId == v) = false) : setQL inv v q now = inv := by
  unfold setQL
  have h2 : inv.map (fun r =>
      if r.variantId == v then { r with quantity := q, lastUpdated := now } else r) =
      inv.map id := by
    apply List.map_congr_left
    intro x hx
    simp [h x hx]
  simpa using h2

theorem adjP_of_no_match (l : List (Nat × Int)) (v : Nat) (d : Int)
    (h : ∀ p ∈ l, (p.1 == v) = false) : adjP l v d = l := by
  unfold adjP
  have h2 : l.map (fun p => if p.1 == v then (p.1, p.2 + d) else p) = l.map id := by
    apply List.map_congr_left
    intro p hp
    simp [h p hp]
  simpa using h2

theorem pairsOf_setQL (inv : List InventoryRow) (v : Nat) (d : Int) (now : Nat)
    (r0 : InventoryRow)
    (hnodup : (idsOf inv).Nodup)
    (hfind : findInvL inv v = some r0) :
    pairsOf (setQL inv v (r0.quantity + d) now) = adjP (pairsOf inv) v d := by
  induction inv with
  | nil => cases hfind
  | cons r rest ih =>
    have hnodup2 := List.nodup_cons.mp hnodup
    by_cases hmatch : (r.variantId == v) = true
    · have hr0 : r0 = r := by
        unfold findInvL at hfind
        simp [List.find?_cons, hmatch] at hfind
        exact hfind.symm
      subst hr0
      have hveq : r0.variantId = v := by simpa using hmatch
      have hnorest : ∀ x ∈ rest, (x.variantId == v) = false := by
        intro x hx
        have hxmem : x.variantId ∈ idsOf rest := List.mem_map_of_mem _ hx
        by_contra hb
        simp only [Bool.not_eq_false, beq_iff_eq] at hb
        have hmm : r0.variantId ∈ idsOf rest := by
          rw [hveq, ← hb]; exact hxmem
        exact hnodup2.1 hmm
      have hpairrest : ∀ p ∈ pairsOf rest, (p.1 == v) = false := by
        intro p hp
        rcases List.mem_map.1 hp with ⟨x, hx, hpx⟩
        rw [← hpx]
        exact hnorest x hx
      rw [setQL_cons, if_pos hmatch, setQL_of_no_match rest v _ now hnorest]
      rw [pairsOf_cons, pairsOf_cons, adjP_cons]
      rw [adjP_of_no_match (pairsOf rest) v d hpairrest]
      simp [hmatch]
    · have hf : (r.variantId == v) = false := by simpa using hmatch
      have hfind2 : findInvL rest v = some r0 := by
        unfold findInvL at hfind ⊢
        simpa [List.find?_cons, hf] using hfind
      have ih2 := ih hnodup2.2 hfind2
      rw [setQL_cons, if_neg hmatch, pairsOf_cons, pairsOf_cons, adjP_cons]
      rw [ih2]
      simp [hf]

theorem adjP_same (l : List (Nat × Int)) (v : Nat) (d e : Int) :
    adjP (adjP l v d) v e = adjP l v (d + e) := by
  unfold adjP
  rw [List.map_map]
  apply List.map_congr_left
  intro p _
  by_cases h : (p.1 == v) = true <;> simp [Function.comp, h] <;> ring

theorem adjP_zero (l : List (Nat × Int)) (v : Nat) : adjP l v 0 = l := by
  unfold adjP
  have h2 : l.map (fun p => if p.1 == v then (p.1, p.2 + 0) else p) = l.map id := by
    apply List.map_congr_left
    intro p _
    by_cases h : (p.1 == v) = true <;> simp [h]
  simpa using h2

theorem adjP_comm (l : List (Nat × Int)) (v w : Nat) (d e : Int) :
    adjP (adjP l v d) w e = adjP (adjP l w e) v d := by
  unfold adjP
  rw [List.map_map, List.map_map]
  apply List.map_congr_left
  intro p _
  by_cases h1 : (p.1 == v) = true <;> by_cases h2 : (p.1 == w) = true <;>
    simp [Function.comp, h1, h2] <;> ring

theorem adjMany_nil (l : List (Nat × Int)) : adjMany l [] = l := rfl

theorem adjMany_cons (l : List (Nat × Int)) (p : Nat × Int) (ds : List (Nat × Int)) :
    adjMany l (p :: ds) = adjMany (adjP l p.1 p.2) ds := rfl

theorem adjP_adjMany_comm (ds : List (Nat × Int)) :
    ∀ (l : List (Nat × Int)) (v : Nat) (d : Int),
      adjP (adjMany l ds) v d = adjMany (adjP l v d) ds := by
  induction ds with
  | nil => intro l v d; rfl
  | cons p ds ih =>
    intro l v d
    rw [adjMany_cons, adjMany_cons, ih, adjP_comm]

theorem negsP_cons (p : Nat × Int) (ds : List (Nat × Int)) :
    negsP (p :: ds) = (p.1, -p.2) :: negsP ds := rfl

theorem negsP_negsP (ds : List (Nat × Int)) : negsP (negsP ds) = ds := by
  unfold negsP
  rw [List.map_map]
  have h2 : ds.map ((fun p : Nat × Int => (p.1, -p.2)) ∘ (fun p => (p.1, -p.2))) =
      ds.map id := by
    apply List.map_congr_left
    intro p _
    simp [Function.comp]
  simpa using h2

/-- Debiting a list of per-variant quantities and then crediting the same list
back, in the same order, is the identity on the quantity projection. -/
theorem adjMany_neg_cancel (ds : List (Nat × Int)) :
    ∀ l : List (Nat × Int), adjMany (adjMany l ds) (negsP ds) = l := by
  induction ds with
  | nil => intro l; rfl
  | cons p ds ih =>
    intro l
    rw [adjMany_cons, negsP_cons, adjMany_cons, adjP_adjMany_comm, adjP_same]
    simp only [add_neg_cancel, adjP_zero]
    exact ih l

theorem findInvL_isSome (inv : List InventoryRow) (v : Nat) :
    (findInvL inv v).isSome = true ↔ v ∈ idsOf inv := by
  induction inv with
  | nil => simp [findInvL, idsOf]
  | cons r rest ih =>
    by_cases h : (r.variantId == v) = true
    · have hv : r.variantId = v := by simpa using h
      simp [findInvL, List.find?_cons, h, idsOf, hv]
    · have hv : ¬ r.variantId = v := by simpa using h
      have hv2 : ¬ v = r.variantId := fun hh => hv hh.symm
      simp only [findInvL] at ih
      simp [findInvL, List.find?_cons, h, idsOf, hv2, ih]

/-- Full characterization of the per-item write loop of `create_sale` on a
state whose inventory table has one row per variant and a row for every item's
variant: it succeeds, touches only `sale_items`, `inventory` and
`inventory_transactions`, appends exactly one item row and one SALE
transaction per item, and debits each item's quantity on the quantity
projection. -/
theorem writeSaleItems_spec (sid now : Nat) (items : List SaleItem) :
    ∀ db : DB,
      (idsOf db.inventory).Nodup →
      (∀ it ∈ items, it.product_variant_id ∈ idsOf db.inventory) →
      ∃ db', writeSaleItems sid now db items = .ok db' ∧
        db'.products = db.products ∧ db'.variants = db.variants ∧
        db'.sales = db.sales ∧ db'.customers = db.customers ∧
        db'.nextProductId = db.nextProductId ∧ db'.nextVariantId = db.nextVariantId ∧
        db'.nextSaleId = db.nextSaleId ∧
        db'.saleItems = db.saleItems ++ items.map (itemRow sid) ∧
        db'.invTxs = db.invTxs ++ items.map (saleTx sid now) ∧
        idsOf db'.inventory = idsOf db.inventory ∧
        pairsOf db'.inventory = adjMany (pairsOf db.inventory)
          (items.map (fun it => (it.product_variant_id, -it.quantity))) := by
  induction items with
  | nil =>
    intro db hnod hpres
    exact ⟨db, rfl, rfl, rfl, rfl, rfl, rfl, rfl, rfl, by simp, by simp, rfl,
      by simp [adjMany_nil]⟩
  | cons it rest ih =>
    intro db hnod hpres
    have hpvin : it.product_variant_id ∈ idsOf db.inventory :=
      hpres it (List.mem_cons_self it rest)
    have hsome : (findInvL db.inventory it.product_variant_id).isSome = true :=
      (findInvL_isSome _ _).mpr hpvin
    rcases Option.isSome_iff_exists.mp hsome with ⟨inv, hfind⟩
    have hids3 : idsOf (setQL db.inventory it.product_variant_id
        (inv.quantity - it.quantity) now) = idsOf db.inventory :=
      idsOf_setQL db.inventory it.product_variant_id (inv.quantity - it.quantity) now
    have hpairs3 : pairsOf (setQL db.inventory it.product_variant_id
        (inv.quantity - it.quantity) now) =
        adjP (pairsOf db.inventory) it.product_variant_id (-it.quantity) := by
      have heq : inv.quantity - it.quantity = inv.quantity + (-it.quantity) := by ring
      rw [heq]
      exact pairsOf_setQL db.inventory it.product_variant_id (-it.quantity) now inv hnod hfind
    unfold writeSaleItems
    rw [show findInventory db it.product_variant_id = some inv from hfind]
    have hnod3 : (idsOf (saleStep sid now db it inv).inventory).Nodup := by
      rw [show (saleStep sid now db it inv).inventory =
        setQL db.inventory it.product_variant_id (inv.quantity - it.quantity) now from rfl]
      rw [hids3]
      exact hnod
    have hpres3 : ∀ it2 ∈ rest,
        it2.product_variant_id ∈ idsOf (saleStep sid now db it inv).inventory := by
      intro it2 h2
      rw [show (saleStep sid now db it inv).inventory =
        setQL db.inventory it.product_variant_id (inv.quantity - it.quantity) now from rfl]
      rw [hids3]
      exact hpres it2 (List.mem_cons_of_mem it h2)
    rcases ih (saleStep sid now db it inv) hnod3 hpres3 with
      ⟨db', hw, hP, hV, hS, hC, hNP, hNV, hNS, hSI, hTX, hIDS, hPAIRS⟩
    refine ⟨db', hw, hP, hV, hS, hC, hNP, hNV, hNS, ?_, ?_, ?_, ?_⟩
    · rw [hSI, show (saleStep sid now db it inv).saleItems =
        db.saleItems ++ [itemRow sid it] from rfl]
      rw [List.map_cons, List.append_assoc, List.singleton_append]
    · rw [hTX, show (saleStep sid now db it inv).invTxs =
        db.invTxs ++ [saleTx sid now it] from rfl]
      rw [List.map_cons, List.append_assoc, List.singleton_append]
    · rw [hIDS, show (saleStep sid now db it inv).inventory =
        setQL db.inventory it.product_variant_id (inv.quantity - it.quantity) now from rfl]
      exact hids3
    · rw [hPAIRS, show (saleStep sid now db it inv).inventory =
        setQL db.inventory it.product_variant_id (inv.quantity - it.quantity) now from rfl]
      rw [hpairs3, List.map_cons, adjMany_cons]

/-- Full characterization of the per-item restore loop of `cancel_sale`:
it succeeds, touches only `inventory` and `inventory_transactions`, appends
exactly one RETURN transaction per loaded item, and credits each item's
quantity back on the quantity projection. -/
theorem restoreItems_spec (sid now : Nat) (rows : List SaleItemRow) :
    ∀ db : DB,
      (idsOf db.inventory).Nodup →
      (∀ it ∈ rows, it.variantId ∈ idsOf db.inventory) →
      ∃ db', restoreItems sid now db rows = .ok db' ∧
        db'.products = db.products ∧ db'.variants = db.variants ∧
        db'.sales = db.sales ∧ db'.customers = db.customers ∧
        db'.nextProductId = db.nextProductId ∧ db'.nextVariantId = db.nextVariantId ∧
        db'.nextSaleId = db.nextSaleId ∧
        db'.saleItems = db.saleItems ∧
        db'.invTxs = db.invTxs ++ rows.map (returnTx sid now) ∧
        idsOf db'.inventory = idsOf db.inventory ∧
        pairsOf db'.inventory = adjMany (pairsOf db.inventory)
          (rows.map (fun it => (it.variantId, it.quantity))) := by
  induction rows with
  | nil =>
    intro db hnod hpres
    exact ⟨db, rfl, rfl, rfl, rfl, rfl, rfl, rfl, rfl, rfl, by simp, rfl,
      by simp [adjMany_nil]⟩
  | cons it rest ih =>
    intro db hnod hpres
    have hpvin : it.variantId ∈ idsOf db.inventory :=
      hpres it (List.mem_cons_self it rest)
    have hsome : (findInvL db.inventory it.variantId).isSome = true :=
      (findInvL_isSome _ _).mpr hpvin
    rcases Option.isSome_iff_exists.mp hsome with ⟨inv, hfind⟩
    have hids3 : idsOf (setQL db.inventory it.variantId
        (inv.quantity + it.quantity) now) = idsOf db.inventory :=
      idsOf_setQL db.inventory it.variantId (inv.quantity + it.quantity) now
    have hpairs3 : pairsOf (setQL db.inventory it.variantId
        (inv.quantity + it.quantity) now) =
        adjP (pairsOf db.inventory) it.variantId it.quantity :=
      pairsOf_setQL db.inventory it.variantId it.quantity now inv hnod hfind
    unfold restoreItems
    rw [show findInventory db it.variantId = some inv from hfind]
    have hnod3 : (idsOf (returnStep sid now db it inv).inventory).Nodup := by
      rw [show (returnStep sid now db it inv).inventory =
        setQL db.inventory it.variantId (inv.quantity + it.quantity) now from rfl]
      rw [hids3]
      exact hnod
    have hpres3 : ∀ it2 ∈ rest,
        it2.variantId ∈ idsOf (returnStep sid now db it inv).inventory := by
      intro it2 h2
      rw [show (returnStep sid now db it inv).inventory =
        setQL db.inventory it.variantId (inv.quantity + it.quantity) now from rfl]
      rw [hids3]
      exact hpres it2 (List.mem_cons_of_mem it h2)
    rcases ih (returnStep sid now db it inv) hnod3 hpres3 with
      ⟨db', hw, hP, hV, hS, hC, hNP, hNV, hNS, hSI, hTX, hIDS, hPAIRS⟩
    refine ⟨db', hw, hP, hV, hS, hC, hNP, hNV, hNS, hSI, ?_, ?_, ?_⟩
    · rw [hTX, show (returnStep sid now db it inv).invTxs =
        db.invTxs ++ [returnTx sid now it] from rfl]
      rw [List.map_cons, List.append_assoc, List.singleton_append]
    · rw [hIDS, show (returnStep sid now db it inv).inventory =
        setQL db.inventory it.variantId (inv.quantity + it.quantity) now from rfl]
      exact hids3
    · rw [hPAIRS, show (returnStep sid now db it inv).inventory =
        setQL db.inventory it.variantId (inv.quantity + it.quantity) now from rfl]
      rw [hpairs3, List.map_cons, adjMany_cons]

/-! ## Validation-loop lemmas -/

/-- When the pre-validation loop succeeds, every item's variant has an
inventory row with sufficient stock. -/
theorem validateItems_ok_all (db : DB) (items : List SaleItem)
    (h : validateItems db items = .ok ()) :
    ∀ it ∈ items, ∃ inv, findInventory db it.product_variant_id = some inv ∧
      ¬ inv.quantity < it.quantity := by
  induction items with
  | nil => intro it hit; cases hit
  | cons it rest ih =>
    unfold validateItems at h
    cases hfind : findInventory db it.product_variant_id with
    | none => rw [hfind] at h; cases h
    | some inv =>
      rw [hfind] at h
      simp only at h
      by_cases hlt : inv.quantity < it.quantity
      · rw [if_pos hlt] at h
        cases hinfo : variantInfo db it.product_variant_id with
        | none => rw [hinfo] at h; cases h
        | some info => rw [hinfo] at h; cases h
      · rw [if_neg hlt] at h
        intro it2 hit2
        rcases List.mem_cons.mp hit2 with h2 | h2
        · subst h2; exact ⟨inv, hfind, hlt⟩
        · exact ih h it2 h2

/-- When every item's variant has an inventory row and resolvable product
info, and some item over-requests, the pre-validation loop fails with the
insufficient-stock error of the first over-requesting item, carrying that
item's available and requested quantities. -/
theorem validateItems_insufficient (db : DB) (items : List SaleItem)
    (hrows : ∀ it ∈ items, (findInventory db it.product_variant_id).isSome)
    (hinfo : ∀ it ∈ items, (variantInfo db it.product_variant_id).isSome)
    (hbad : ∃ it ∈ items, ∃ inv, findInventory db it.product_variant_id = some inv ∧
      inv.quantity < it.quantity) :
    ∃ it ∈ items, ∃ inv n s c,
      findInventory db it.product_variant_id = some inv ∧
      inv.quantity < it.quantity ∧
      validateItems db items =
        .error (.insufficientStock n s c inv.quantity it.quantity) := by
  induction items with
  | nil => rcases hbad with ⟨it, hit, _⟩; cases hit
  | cons it rest ih =>
    rcases Option.isSome_iff_exists.mp (hrows it (List.mem_cons_self it rest)) with
      ⟨inv, hfind⟩
    by_cases hlt : inv.quantity < it.quantity
    · rcases Option.isSome_iff_exists.mp (hinfo it (List.mem_cons_self it rest)) with
        ⟨info, hinfo2⟩
      refine ⟨it, List.mem_cons_self it rest, inv, info.1, info.2.1, info.2.2,
        hfind, hlt, ?_⟩
      unfold validateItems
      simp [hfind, hlt, hinfo2]
    · rcases hbad with ⟨it0, hit0, inv0, hfind0, hlt0⟩
      have hit0r : it0 ∈ rest := by
        rcases List.mem_cons.mp hit0 with h2 | h2
        · exfalso
          subst h2
          rw [hfind] at hfind0
          injection hfind0 with hfind0
          rw [← hfind0] at hlt0
          exact hlt hlt0
        · exact h2
      rcases ih (fun x hx => hrows x (List.mem_cons_of_mem it hx))
          (fun x hx => hinfo x (List.mem_cons_of_mem it hx))
          ⟨it0, hit0r, inv0, hfind0, hlt0⟩ with
        ⟨it1, hit1, inv1, n, s, c, hfind1, hlt1, hval⟩
      refine ⟨it1, List.mem_cons_of_mem it hit1, inv1, n, s, c, hfind1, hlt1, ?_⟩
      unfold validateItems
      simp only [hfind, hlt, if_false]
      exact hval

/-- When every item before a given no-inventory item passes the stock check,
the pre-validation loop fails with the inventory-not-found error. -/
theorem validateItems_notfound (db : DB) (pre : List SaleItem) (bad : SaleItem)
    (rest : List SaleItem)
    (hpre : ∀ it ∈ pre, ∃ inv, findInventory db it.product_variant_id = some inv ∧
      ¬ inv.quantity < it.quantity)
    (hbad : findInventory db bad.product_variant_id = none) :
    validateItems db (pre ++ bad :: rest) = .error .productNotInInventory := by
  induction pre with
  | nil =>
    rw [List.nil_append]
    unfold validateItems
    rw [hbad]
  | cons it pre ih =>
    rcases hpre it (List.mem_cons_self it pre) with ⟨inv, hfind, hlt⟩
    rw [List.cons_append]
    unfold validateItems
    simp only [hfind, hlt, if_false]
    exact ih (fun x hx => hpre x (List.mem_cons_of_mem it hx))

/-- Success of `create_sale` decomposed into its two phases. -/
theorem create_sale_ok_elim (db : DB) (now : Nat) (sale : Sale) (sid : Nat)
    (db' : DB) (h : create_sale db now sale = .ok (sid, db')) :
    sid = db.nextSaleId ∧ validateItems db sale.items = .ok () ∧
    writeSaleItems db.nextSaleId now (dbWithSaleRow db sale) sale.items = .ok db' := by
  unfold create_sale at h
  cases hv : validateItems db sale.items with
  | error e => rw [hv] at h; cases h
  | ok u =>
    cases u
    rw [hv] at h
    cases hw : writeSaleItems db.nextSaleId now (dbWithSaleRow db sale) sale.items with
    | error e => rw [hw] at h; cases h
    | ok db2 =>
      rw [hw] at h
      injection h with h
      have hpair := Prod.mk.injEq _ _ _ _ |>.mp h
      refine ⟨hpair.1.symm, rfl, ?_⟩
      rw [← hpair.2]

/-- A validation error aborts `create_sale` with that error (and, by the
rollback discipline, no committed write). -/
theorem create_sale_error_of_validate (db : DB) (now : Nat) (sale : Sale)
    (e : Err) (h : validateItems db sale.items = .error e) :
    create_sale db now sale = .error e := by
  unfold create_sale
  rw [h]

/-- The write loop never touches the `sales` table and appends exactly the item
rows, verbatim from the in-memory items. -/
theorem writeSaleItems_rows (sid now : Nat) (items : List SaleItem) :
    ∀ db db' : DB, writeSaleItems sid now db items = .ok db' →
      db'.sales = db.sales ∧ db'.saleItems = db.saleItems ++ items.map (itemRow sid) := by
  induction items with
  | nil =>
    intro db db' h
    unfold writeSaleItems at h
    injection h with h
    rw [← h]
    exact ⟨rfl, by simp⟩
  | cons it rest ih =>
    intro db db' h
    unfold writeSaleItems at h
    cases hfind : findInventory db it.product_variant_id with
    | none => rw [hfind] at h; cases h
    | some inv =>
      rw [hfind] at h
      rcases ih _ _ h with ⟨hs, hsi⟩
      constructor
      · rw [hs]; rfl
      · rw [hsi, show (saleStep sid now db it inv).saleItems =
          db.saleItems ++ [itemRow sid it] from rfl]
        rw [List.map_cons, List.append_assoc, List.singleton_append]

/-! ## Lemmas about loading and deleting the sale during cancellation -/

theorem variantInfo_congr (db1 db : DB) (hv : db1.variants = db.variants)
    (hp : db1.products = db.products) (v : Nat) :
    variantInfo db1 v = variantInfo db v := by
  unfold variantInfo
  rw [hv, hp]

theorem find?_fresh_append (l : List SaleRow) (row : SaleRow) (sid : Nat)
    (hrow : row.id = sid) (hold : ∀ s ∈ l, s.id ≠ sid) :
    (l ++ [row]).find? (fun s => s.id == sid) = some row := by
  rw [List.find?_append]
  have hnone : l.find? (fun s => s.id == sid) = none := by
    rw [List.find?_eq_none]
    intro s hs
    simp [hold s hs]
  rw [hnone]
  simp [List.find?_cons, hrow]

theorem filter_fresh_append_sales (l : List SaleRow) (row : SaleRow) (sid : Nat)
    (hrow : row.id = sid) (hold : ∀ s ∈ l, s.id ≠ sid) :
    (l ++ [row]).filter (fun s => !(s.id == sid)) = l := by
  rw [List.filter_append]
  have h1 : l.filter (fun s => !(s.id == sid)) = l := by
    rw [List.filter_eq_self]
    intro s hs
    simp [hold s hs]
  have h2 : [row].filter (fun s => !(s.id == sid)) = [] := by
    simp [List.filter, hrow]
  rw [h1, h2, List.append_nil]

theorem filter_fresh_append_items (l newRows : List SaleItemRow) (sid : Nat)
    (hold : ∀ it ∈ l, it.saleId ≠ sid) (hnew : ∀ it ∈ newRows, it.saleId = sid) :
    (l ++ newRows).filter (fun it => !(it.saleId == sid)) = l := by
  rw [List.filter_append]
  have h1 : l.filter (fun it => !(it.saleId == sid)) = l := by
    rw [List.filter_eq_self]
    intro it hit
    simp [hold it hit]
  have h2 : newRows.filter (fun it => !(it.saleId == sid)) = [] := by
    rw [List.filter_eq_nil_iff]
    intro it hit
    simp [hnew it hit]
  rw [h1, h2, List.append_nil]

/-- What `get_sale` loads for the freshly inserted sale: exactly the new item
rows, given that older item rows belong to older sales and every new row's
variant resolves through the variant/product join. -/
theorem loadSaleItems_fresh (db1 : DB) (old newRows : List SaleItemRow) (sid : Nat)
    (hsi : db1.saleItems = old ++ newRows)
    (hold : ∀ it ∈ old, it.saleId ≠ sid)
    (hnew : ∀ it ∈ newRows, it.saleId = sid)
    (hinfo : ∀ it ∈ newRows, (variantInfo db1 it.variantId).isSome) :
    loadSaleItems db1 sid = newRows := by
  unfold loadSaleItems
  rw [hsi, List.filter_append]
  have h1 : old.filter (fun it => it.saleId == sid) = [] := by
    rw [List.filter_eq_nil_iff]
    intro it hit
    simp [hold it hit]
  have h2 : newRows.filter (fun it => it.saleId == sid) = newRows := by
    rw [List.filter_eq_self]
    intro it hit
    simp [hnew it hit]
  rw [h1, h2, List.nil_append]
  rw [List.filter_eq_self]
  intro it hit
  exact hinfo it hit

/-- The variant loop of `add_product` appends one zero-quantity inventory row
per variant argument and records no transaction. -/
theorem insertVariantsZero_inventory (now pid : Nat) (vs : List VariantArg) :
    ∀ db : DB, (insertVariantsZero now pid db vs).invTxs = db.invTxs ∧
      ∃ newRows, (insertVariantsZero now pid db vs).inventory = db.inventory ++ newRows ∧
        newRows.length = vs.length ∧ (∀ r ∈ newRows, r.quantity = 0) := by
  induction vs with
  | nil =>
    intro db
    exact ⟨rfl, [], by simp [insertVariantsZero], rfl, by intro r hr; cases hr⟩
  | cons v rest ih =>
    intro db
    unfold insertVariantsZero
    simp only
    rcases ih _ with ⟨htx, rows, hinv, hlen, hq⟩
    refine ⟨htx, ({ variantId := db.nextVariantId, quantity := 0, lastUpdated := now } :: rows), ?_, ?_, ?_⟩
    · rw [hinv]
      simp
    · simp [hlen]
    · intro r hr
      rcases List.mem_cons.mp hr with h2 | h2
      · rw [h2]
      · exact hq r h2

/-- `Sale.add_item` keeps every item's subtotal equal to its own formula:
the merge branch recomputes the merged item's subtotal from its updated
quantity and its frozen price/discount, and the append branch adds an item
already satisfying the formula. -/
theorem addItemMerge_formula (it : SaleItem)
    (hit : it.subtotal = calculate_subtotal it.quantity it.unit_price it.discount_percent) :
    ∀ items : List SaleItem,
      (∀ x ∈ items, x.subtotal = calculate_subtotal x.quantity x.unit_price x.discount_percent) →
      ∀ x ∈ addItemMerge items it,
        x.subtotal = calculate_subtotal x.quantity x.unit_price x.discount_percent := by
  intro items
  induction items with
  | nil =>
    intro _ x hx
    rw [List.mem_singleton.1 hx]
    exact hit
  | cons y ys ih =>
    intro hall x hx
    unfold addItemMerge at hx
    by_cases hpv : y.product_variant_id = it.product_variant_id
    · rw [if_pos hpv] at hx
      rcases List.mem_cons.mp hx with h2 | h2
      · rw [h2]
      · exact hall x (List.mem_cons_of_mem y h2)
    · rw [if_neg hpv] at hx
      rcases List.mem_cons.mp hx with h2 | h2
      · rw [h2]
        exact hall y (List.mem_cons_self y ys)
      · exact ih (fun z hz => hall z (List.mem_cons_of_mem y hz)) x h2

/-! ## The claims -/

/-- C7: for every call `adjust_inventory(variant_id, delta)` in which the
variant's current quantity plus delta is below 0, the call raises the
invalid-quantity error ("La cantidad de inventario no puede ser negativa").
The error return models the source's rollback-before-reraise, so the
committed `inventory` row and `inventory_transactions` table are exactly the
pre-call ones: the error branch is reached before any write is issued. -/
theorem C7_adjust_below_zero_fails (db : DB) (now vid : Nat) (d : Int)
    (notes : Option String) (inv : InventoryRow)
    (hfind : findInventory db vid = some inv)
    (hneg : inv.quantity + d < 0) :
    adjust_inventory db now vid d notes = .error .negativeQuantity := by
  unfold adjust_inventory
  rw [hfind]
  simp only
  rw [if_pos hneg]

/-- Witness for C7: on the stocked store (variant 1 at quantity 3), adjusting
by −5 fails with the invalid-quantity error. -/
theorem C7_witness : adjust_inventory exDB3 2 1 (-5) none = .error .negativeQuantity :=
  C7_adjust_below_zero_fails exDB3 2 1 (-5) none
    { variantId := 1, quantity := 3, lastUpdated := 1 } rfl (by decide)

/-- C10: `create_sale` on a sale object with an empty items list raises
nothing: it inserts exactly one `sales` row carrying the caller-supplied
`total_amount`, inserts no `sale_items` row and no transaction row, leaves
every inventory quantity unchanged, and returns the new sale id. -/
theorem C10_empty_sale (db : DB) (now : Nat) (sale : Sale)
    (h : sale.items = []) :
    create_sale db now sale = .ok (db.nextSaleId, dbWithSaleRow db sale) ∧
    (dbWithSaleRow db sale).saleItems = db.saleItems ∧
    (dbWithSaleRow db sale).invTxs = db.invTxs ∧
    (dbWithSaleRow db sale).inventory = db.inventory ∧
    (dbWithSaleRow db sale).sales = db.sales ++ [saleRowOf db sale] ∧
    (saleRowOf db sale).totalAmount = sale.total_amount := by
  refine ⟨?_, rfl, rfl, rfl, rfl, rfl⟩
  unfold create_sale
  rw [h]
  rfl

/-- Witness for C10: an empty sale with caller total 5 on the one-variant
store commits one sale row and returns id 1. -/
theorem C10_witness :
    create_sale exDBv 2 exSaleEmpty = .ok (1, dbWithSaleRow exDBv exSaleEmpty) :=
  (C10_empty_sale exDBv 2 exSaleEmpty rfl).1

/-- Counterexample for C4: `update_inventory` imposes no lower bound on the
quantity it writes.  From the reachable one-variant store (quantity 0), the
call `update_inventory(variant 1, new_quantity := -5, ADJUSTMENT)` succeeds
and commits the quantity −5, so a committed `Inventory.quantity` can be
negative, contradicting the claim. -/
theorem C4_counterexample :
    Reachable exDBv ∧
    update_inventory exDBv 2 1 (-5) TxType.ADJUSTMENT none none = .ok exDBneg ∧
    Reachable exDBneg ∧
    exDBneg.inventory.map (fun r => r.quantity) = [(-5 : Int)] := by
  have h1 : Reachable exDBp := Reachable.productAdded initialDB 0 exProduct [] Reachable.init
  have h2 : Reachable exDBv := Reachable.variantAdded exDBp 0 exVariantM 1 exDBv h1 rfl
  have h3 : update_inventory exDBv 2 1 (-5) TxType.ADJUSTMENT none none = .ok exDBneg := rfl
  exact ⟨h2, h3, Reachable.updateInv exDBv 2 1 (-5) TxType.ADJUSTMENT none none exDBneg h2 h3,
    rfl⟩

/-- C4 as amended: the quantity ≥ 0 bound is enforced only by
`adjust_inventory`, which on success leaves every row of the adjusted variant
non-negative; `update_inventory` (and a `create_sale` whose line items repeat
a variant) can commit a negative quantity. -/
theorem C4_amended_adjust_nonneg (db : DB) (now vid : Nat) (d : Int)
    (notes : Option String) (db' : DB)
    (h : adjust_inventory db now vid d notes = .ok db') :
    ∀ r ∈ db'.inventory, r.variantId = vid → 0 ≤ r.quantity := by
  unfold adjust_inventory at h
  cases hfind : findInventory db vid with
  | none => rw [hfind] at h; cases h
  | some inv =>
    rw [hfind] at h
    simp only at h
    by_cases hneg : inv.quantity + d < 0
    · rw [if_pos hneg] at h; cases h
    · rw [if_neg hneg] at h
      unfold update_inventory at h
      cases hf2 : findInventory db vid with
      | none => rw [hf2] at h; cases h
      | some inv2 =>
        rw [hf2] at h
        simp only at h
        injection h with h
        rw [← h]
        intro r hr hrv
        rcases List.mem_map.1 hr with ⟨r0, hr0, hrr⟩
        by_cases hcase : (r0.variantId == vid) = true
        · have hre : r = { r0 with quantity := inv.quantity + d, lastUpdated := now } := by
            rw [← hrr]; simp [hcase]
          rw [hre]
          simp only
          omega
        · have hre : r = r0 := by rw [← hrr]; simp [hcase]
          rw [hre] at hrv
          exact absurd hrv (by simpa using hcase)

/-- Witness for C4 as amended: after `adjust_inventory` of +3 on variant 1,
the committed row for variant 1 has a non-negative quantity. -/
theorem C4_amended_witness :
    0 ≤ ({ variantId := 1, quantity := 3, lastUpdated := 1 } : InventoryRow).quantity :=
  C4_amended_adjust_nonneg exDBv 1 1 3 none exDB3 rfl
    { variantId := 1, quantity := 3, lastUpdated := 1 } (by decide) rfl

/-- Counterexample for C6: `add_variant` with the caller-supplied initial
quantity 5 creates the inventory row holding 5 but records no
`inventory_transactions` row at all — in particular no ADJUSTMENT — on the
reachable one-product store. -/
theorem C6_counterexample :
    Reachable exDBp ∧
    add_variant exDBp 0 exVariantG5 = .ok (1, exDBg5) ∧
    exDBg5.inventory = [{ variantId := 1, quantity := 5, lastUpdated := 0 }] ∧
    exDBg5.invTxs = [] := by
  have h1 : Reachable exDBp := Reachable.productAdded initialDB 0 exProduct [] Reachable.init
  exact ⟨h1, rfl, rfl, rfl⟩

/-- C6 as amended: variant creation creates exactly one inventory row — with
quantity 0 for each variant of `add_product`, and with the caller-supplied
`inventory_quantity` for `add_variant` — and records no transaction row
itself, even when the supplied initial quantity is non-zero. -/
theorem C6_amended (db : DB) (now : Nat) :
    (∀ v vid db', add_variant db now v = .ok (vid, db') →
      vid = db.nextVariantId ∧
      db'.inventory = db.inventory ++
        [{ variantId := vid, quantity := v.inventory_quantity, lastUpdated := now }] ∧
      db'.invTxs = db.invTxs) ∧
    (∀ p vs, (add_product db now p vs).2.invTxs = db.invTxs ∧
      ∃ newRows, (add_product db now p vs).2.inventory = db.inventory ++ newRows ∧
        newRows.length = vs.length ∧ (∀ r ∈ newRows, r.quantity = 0)) := by
  constructor
  · intro v vid db' h
    unfold add_variant at h
    cases hd : db.variants.find? (fun w =>
        w.productId == v.product_id && w.size == v.size && w.color == v.color) with
    | some w => rw [hd] at h; cases h
    | none =>
      rw [hd] at h
      simp only at h
      injection h with h
      have hpair := Prod.mk.injEq _ _ _ _ |>.mp h
      refine ⟨hpair.1.symm, ?_, ?_⟩
      · rw [← hpair.2, ← hpair.1]
      · rw [← hpair.2]
  · intro p vs
    exact insertVariantsZero_inventory now db.nextProductId vs _

/-- Witness for C6 as amended: adding the quantity-5 variant to the
one-product store creates its single inventory row and appends no
transaction. -/
theorem C6_amended_witness :
    (1 : Nat) = exDBp.nextVariantId ∧
    exDBg5.inventory = exDBp.inventory ++
      [{ variantId := 1, quantity := exVariantG5.inventory_quantity, lastUpdated := 0 }] ∧
    exDBg5.invTxs = exDBp.invTxs :=
  (C6_amended exDBp 0).1 exVariantG5 1 exDBg5 rfl

/-- Counterexample for C1: the ledger equality is not preserved by every
mutating operation.  On the reachable one-product store (where it holds),
`add_variant` with a caller-supplied initial quantity 5 commits an inventory
row holding 5 while appending no transaction, so the reachable successor
state violates `Inventory.quantity = Σ quantity_change`. -/
theorem C1_counterexample :
    ledgerInvariant exDBp ∧ Reachable exDBp ∧
    add_variant exDBp 0 exVariantG5 = .ok (1, exDBg5) ∧
    Reachable exDBg5 ∧ ¬ ledgerInvariant exDBg5 := by
  have h1 : Reachable exDBp := Reachable.productAdded initialDB 0 exProduct [] Reachable.init
  exact ⟨by decide, h1, rfl, Reachable.variantAdded exDBp 0 exVariantG5 1 exDBg5 h1 rfl,
    by decide⟩

/-- C1 as amended: on any state satisfying the ledger equality (with the
transaction table referencing only already-allocated variant ids), every
mutating operation preserves it — `update_inventory`, `adjust_inventory`,
`create_sale`, `cancel_sale`, `add_product` (inventory initialized at 0) and
`delete_variant` unconditionally, and `add_variant` exactly when the supplied
initial quantity is 0.  Failure paths roll the transaction back, so an
`Except.error` result leaves the committed state — and the equality —
untouched by construction. -/
theorem C1_amended (db : DB) (hok : ledgerInvariant db) (hfresh : txIdsFresh db) :
    (∀ now vid q t ref notes db',
      update_inventory db now vid q t ref notes = .ok db' → ledgerInvariant db') ∧
    (∀ now vid d notes db',
      adjust_inventory db now vid d notes = .ok db' → ledgerInvariant db') ∧
    (∀ now s sid db', create_sale db now s = .ok (sid, db') → ledgerInvariant db') ∧
    (∀ now sid db', cancel_sale db now sid = .ok db' → ledgerInvariant db') ∧
    (∀ now p vs, ledgerInvariant (add_product db now p vs).2) ∧
    (∀ now v vid db', v.inventory_quantity = 0 →
      add_variant db now v = .ok (vid, db') → ledgerInvariant db') ∧
    (∀ vid db', delete_variant db vid = .ok db' → ledgerInvariant db') := by
  refine ⟨?_, ?_, ?_, ?_, ?_, ?_, ?_⟩
  · intro now vid q t ref notes db' h
    exact update_inventory_ledger db now vid q t ref notes db' hok h
  · intro now vid d notes db' h
    exact adjust_inventory_ledger db now vid d notes db' hok h
  · intro now s sid db' h
    exact create_sale_ledger db now s sid db' hok h
  · intro now sid db' h
    exact cancel_sale_ledger db now sid db' hok h
  · intro now p vs
    exact add_product_ledger db now p vs hok hfresh
  · intro now v vid db' hq h
    exact add_variant_ledger db now v vid db' hok hfresh hq h
  · intro vid db' h
    exact delete_variant_ledger db vid db' hok h

/-- Witness for C1 as amended: the stocked store satisfies the equality, and
it still holds after the Scenario-A sale commits. -/
theorem C1_amended_witness : ledgerInvariant exDBsold :=
  (C1_amended exDB10 (by decide) (by decide)).2.2.1 2 exSaleOK 1 exDBsold rfl

/-- Counterexample for C5: `create_sale` persists the in-memory object's
`total_amount` verbatim, so a persisted sale whose caller set the total to 5
while its single item's `quantity × unit_price × (1 − discount/100)` is 40
stores 5 ≠ 40.  (The `Sale` object only recomputes the total inside
`add_item`/`remove_item`; nothing forces the field to match the items at
persist time.) -/
theorem C5_counterexample :
    create_sale exDB10 2 exSaleBadTotal = .ok (1, exDBbadTotal) ∧
    exDBbadTotal.sales.map (fun s => s.totalAmount) = [5] ∧
    exDBbadTotal.saleItems.map (fun it =>
      calculate_subtotal it.quantity it.unitPrice it.discountPercent) =
      [calculate_subtotal 2 20 0] ∧
    calculate_subtotal 2 20 0 = 40 ∧
    (5 : Rat) ≠ 40 := by
  refine ⟨rfl, rfl, rfl, ?_, ?_⟩
  · unfold calculate_subtotal
    norm_num
  · norm_num

/-- C5 as amended: (1) a `SaleItem` whose subtotal was not pre-supplied (the
constructor argument is not positive, e.g. the default 0.0) stores
`quantity × unit_price × (1 − discount_percent/100)`; (2) `Sale.add_item`
keeps a sale consistent (every item's subtotal equals its formula and the
total equals the sum of subtotals) when fed such items; (3) a consistent
sale's total equals the sum of the per-item formulas; and (4) `create_sale`
persists `total_amount` and each item's `subtotal` verbatim into the
`sales` / `sale_items` rows. -/
theorem C5_amended :
    (∀ (v : Nat) (q : Int) (up dp st : Rat), ¬ st > 0 →
      (SaleItem.mkItem v q up dp st).subtotal = calculate_subtotal q up dp) ∧
    (∀ (s : Sale) (it : SaleItem), saleConsistent s →
      it.subtotal = calculate_subtotal it.quantity it.unit_price it.discount_percent →
      saleConsistent (s.add_item it)) ∧
    (∀ s : Sale, saleConsistent s →
      s.total_amount = (s.items.map (fun it =>
        calculate_subtotal it.quantity it.unit_price it.discount_percent)).sum) ∧
    (∀ (db : DB) (now : Nat) (sale : Sale) (sid : Nat) (db' : DB),
      create_sale db now sale = .ok (sid, db') →
      db'.sales = db.sales ++ [saleRowOf db sale] ∧
      db'.saleItems = db.saleItems ++ sale.items.map (itemRow sid)) := by
  refine ⟨?_, ?_, ?_, ?_⟩
  · intro v q up dp st hst
    unfold SaleItem.mkItem
    simp only [if_neg hst]
  · intro s it hs hit
    constructor
    · exact addItemMerge_formula it hit s.items hs.1
    · rfl
  · intro s hs
    rw [hs.2]
    unfold sumSubtotals
    congr 1
    exact List.map_congr_left hs.1
  · intro db now sale sid db' h
    rcases create_sale_ok_elim db now sale sid db' h with ⟨hsid, _, hw⟩
    rcases writeSaleItems_rows db.nextSaleId now sale.items (dbWithSaleRow db sale) db' hw
      with ⟨hs, hsi⟩
    subst hsid
    exact ⟨hs, hsi⟩

/-- Witness for C5 as amended: the consistent one-item sale's total equals
the sum of the per-item formulas. -/
theorem C5_amended_witness :
    exSaleUnit.total_amount = (exSaleUnit.items.map
      (fun it => calculate_subtotal it.quantity it.unit_price it.discount_percent)).sum :=
  C5_amended.2.2.1 exSaleUnit
    (by
      constructor
      · intro it hit
        rw [List.mem_singleton.1 hit]
        simp [calculate_subtotal]
      · simp [exSaleUnit, sumSubtotals])

/-- C2: whenever every line item's variant has an inventory row and resolvable
product info and some line item requests more than the available quantity —
even if earlier items individually pass — `create_sale` fails with the
insufficient-stock error carrying that item's available and requested
quantities.  The validation loop runs before the first INSERT, and the error
return models the rollback, so the committed `sales` / `sale_items` /
`inventory` / `inventory_transactions` tables are exactly the pre-call ones. -/
theorem C2_insufficient_stock_aborts (db : DB) (now : Nat) (sale : Sale)
    (hrows : ∀ it ∈ sale.items, (findInventory db it.product_variant_id).isSome)
    (hinfo : ∀ it ∈ sale.items, (variantInfo db it.product_variant_id).isSome)
    (hbad : ∃ it ∈ sale.items, ∃ inv,
      findInventory db it.product_variant_id = some inv ∧ inv.quantity < it.quantity) :
    ∃ it ∈ sale.items, ∃ inv n s c,
      findInventory db it.product_variant_id = some inv ∧
      inv.quantity < it.quantity ∧
      create_sale db now sale = .error (.insufficientStock n s c inv.quantity it.quantity) := by
  rcases validateItems_insufficient db sale.items hrows hinfo hbad with
    ⟨it, hit, inv, n, s, c, hfind, hlt, hval⟩
  exact ⟨it, hit, inv, n, s, c, hfind, hlt,
    create_sale_error_of_validate db now sale _ hval⟩

/-- Witness for C2 (Scenario C): with variants 1 and 2 stocked at 10 and 3,
a sale of 4 of variant 1 (passes) and 5 of variant 2 (over-requests) fails
with the insufficient-stock error for variant 2. -/
theorem C2_witness :
    ∃ it ∈ exSaleC.items, ∃ inv n s c,
      findInventory exDBstock it.product_variant_id = some inv ∧
      inv.quantity < it.quantity ∧
      create_sale exDBstock 2 exSaleC =
        .error (.insufficientStock n s c inv.quantity it.quantity) :=
  C2_insufficient_stock_aborts exDBstock 2 exSaleC (by decide) (by decide)
    ⟨{ product_variant_id := 2, quantity := 5, unit_price := 20,
       discount_percent := 0, subtotal := 100 },
      List.mem_cons_of_mem _ (List.mem_cons_self _ _),
      { variantId := 2, quantity := 3, lastUpdated := 1 }, rfl, by decide⟩

/-- Counterexample for C8: a `create_sale` call CAN contain an item whose
variant has no inventory row and still fail with the insufficient-stock
error rather than inventory-not-found — it suffices that an earlier item
over-requests.  On the reachable store with variant 1 at quantity 3, the sale
[5 of variant 1, 1 of variant 999] fails with insufficient stock for
variant 1 even though variant 999 has no inventory row. -/
theorem C8_counterexample :
    Reachable exDB3 ∧
    findInventory exDB3 999 = none ∧
    exSaleMixed.items.map (fun it => it.product_variant_id) = [1, 999] ∧
    create_sale exDB3 2 exSaleMixed =
      .error (.insufficientStock "Camisa" "M" "Rojo" 3 5) := by
  refine ⟨?_, rfl, by decide, rfl⟩
  have h1 : Reachable exDBp := Reachable.productAdded initialDB 0 exProduct [] Reachable.init
  have h2 : Reachable exDBv := Reachable.variantAdded exDBp 0 exVariantM 1 exDBv h1 rfl
  exact Reachable.adjustInv exDBv 1 1 3 none exDB3 h2 rfl

/-- C8 as amended: a `create_sale` call with an item whose variant has no
inventory row always fails (and, by rollback, commits nothing); the error is
the inventory-not-found one exactly when every line item before the first
such item passes the stock check.  (When an earlier item over-requests first,
the insufficient-stock error wins, as the counterexample shows.) -/
theorem C8_amended (db : DB) (now : Nat) (sale : Sale) :
    ((∃ it ∈ sale.items, findInventory db it.product_variant_id = none) →
      ∃ e, create_sale db now sale = .error e) ∧
    (∀ pre bad rest, sale.items = pre ++ bad :: rest →
      (∀ it ∈ pre, ∃ inv, findInventory db it.product_variant_id = some inv ∧
        ¬ inv.quantity < it.quantity) →
      findInventory db bad.product_variant_id = none →
      create_sale db now sale = .error .productNotInInventory) := by
  constructor
  · intro hnone
    cases hv : validateItems db sale.items with
    | error e => exact ⟨e, create_sale_error_of_validate db now sale e hv⟩
    | ok u =>
      exfalso
      cases u
      rcases hnone with ⟨it, hit, hfind⟩
      rcases validateItems_ok_all db sale.items hv it hit with ⟨inv, hfind2, _⟩
      rw [hfind] at hfind2
      cases hfind2
  · intro pre bad rest hitems hpre hbad
    apply create_sale_error_of_validate
    rw [hitems]
    exact validateItems_notfound db pre bad rest hpre hbad

/-- Witness for C8 as amended: the sale [2 of variant 1 (passes), 1 of
variant 999 (no inventory row)] fails with the inventory-not-found error. -/
theorem C8_amended_witness :
    create_sale exDB3 2 exSaleNF = .error .productNotInInventory :=
  (C8_amended exDB3 2 exSaleNF).2
    [{ product_variant_id := 1, quantity := 2, unit_price := 20,
       discount_percent := 0, subtotal := 40 }]
    { product_variant_id := 999, quantity := 1, unit_price := 20,
      discount_percent := 0, subtotal := 20 } [] rfl
    (fun it hit => by
      rw [List.mem_singleton.1 hit]
      exact ⟨{ variantId := 1, quantity := 3, lastUpdated := 1 }, rfl, by decide⟩)
    rfl

/-- C9: for a customer referenced by at least one sale, `delete_customer`
succeeds (the Python method returns `True` unconditionally; the model returns
the new state), keeps every `sale_items` row and every inventory table
untouched, keeps every `sales` row in place with its id, date, payment method
and `total_amount` unchanged, nulls `customer_id` exactly on the rows that
referenced the customer, and removes the customer row. -/
theorem C9_delete_customer_nulls (db : DB) (cid : Nat)
    (h : ∃ s ∈ db.sales, s.customerId = some cid) :
    (delete_customer db cid).saleItems = db.saleItems ∧
    (delete_customer db cid).inventory = db.inventory ∧
    (delete_customer db cid).invTxs = db.invTxs ∧
    (delete_customer db cid).sales.length = db.sales.length ∧
    (∀ i (hi : i < db.sales.length) (hi2 : i < (delete_customer db cid).sales.length),
      ((delete_customer db cid).sales.get ⟨i, hi2⟩).id = (db.sales.get ⟨i, hi⟩).id ∧
      ((delete_customer db cid).sales.get ⟨i, hi2⟩).saleDate = (db.sales.get ⟨i, hi⟩).saleDate ∧
      ((delete_customer db cid).sales.get ⟨i, hi2⟩).paymentMethod =
        (db.sales.get ⟨i, hi⟩).paymentMethod ∧
      ((delete_customer db cid).sales.get ⟨i, hi2⟩).totalAmount =
        (db.sales.get ⟨i, hi⟩).totalAmount ∧
      ((delete_customer db cid).sales.get ⟨i, hi2⟩).customerId =
        (if (db.sales.get ⟨i, hi⟩).customerId = some cid then none
         else (db.sales.get ⟨i, hi⟩).customerId)) ∧
    (∀ s ∈ (delete_customer db cid).sales, s.customerId ≠ some cid) ∧
    (∀ c ∈ (delete_customer db cid).customers, c.id ≠ cid) := by
  rcases h with ⟨s0, hs0, hc0⟩
  have hcnt : (db.sales.filter (fun s => s.customerId == some cid)).length > 0 := by
    have hmem : s0 ∈ db.sales.filter (fun s => s.customerId == some cid) :=
      List.mem_filter.mpr ⟨hs0, by simp [hc0]⟩
    exact List.length_pos.mpr (List.ne_nil_of_mem hmem)
  unfold delete_customer
  rw [if_pos hcnt]
  refine ⟨rfl, rfl, rfl, by simp, ?_, ?_, ?_⟩
  · intro i hi hi2
    simp only [List.get_eq_getElem, List.getElem_map]
    by_cases hc : (db.sales.get ⟨i, hi⟩).customerId = some cid
    · simp only [List.get_eq_getElem] at hc
      simp [hc]
    · simp only [List.get_eq_getElem] at hc
      simp [hc]
  · intro s hs
    rcases List.mem_map.1 hs with ⟨s1, hs1, hss⟩
    by_cases hc : s1.customerId = some cid
    · rw [← hss]
      simp [hc]
    · rw [← hss]
      simp [hc]
  · intro c hc2
    have hmf := List.mem_filter.mp hc2
    simpa using hmf.2

/-- Witness for C9: deleting customer 1, referenced by the single sale of
`exDBcust`, keeps the sale items and the sale count. -/
theorem C9_witness :
    (delete_customer exDBcust 1).saleItems = exDBcust.saleItems ∧
    (delete_customer exDBcust 1).sales.length = exDBcust.sales.length :=
  ⟨(C9_delete_customer_nulls exDBcust 1
      ⟨{ id := 1, customerId := some 1, saleDate := 0, paymentMethod := "EFECTIVO",
         totalAmount := 100 }, List.mem_cons_self _ _, rfl⟩).1,
   (C9_delete_customer_nulls exDBcust 1
      ⟨{ id := 1, customerId := some 1, saleDate := 0, paymentMethod := "EFECTIVO",
         totalAmount := 100 }, List.mem_cons_self _ _, rfl⟩).2.2.2.1⟩

/-- C3: on any well-formed state (one inventory row per variant, sale ids
below the auto-increment counter, every item's variant resolvable through the
variant/product join), if `create_sale` succeeds with id `sid`, then
`cancel_sale sid` run immediately afterwards succeeds, restores every
variant's quantity to its pre-sale value, leaves no `sales` row and no
`sale_items` row for `sid`, and the pair of calls appends exactly one SALE
transaction (`quantity_change = -quantity`) and one RETURN transaction
(`quantity_change = +quantity`) per line item, in that order. -/
theorem C3_round_trip (db : DB) (now1 now2 : Nat) (sale : Sale) (sid : Nat)
    (db1 : DB)
    (hnodup : (idsOf db.inventory).Nodup)
    (hfresh : saleIdsFresh db)
    (hinfo : ∀ it ∈ sale.items, (variantInfo db it.product_variant_id).isSome)
    (h1 : create_sale db now1 sale = .ok (sid, db1)) :
    ∃ db2, cancel_sale db1 now2 sid = .ok db2 ∧
      pairsOf db2.inventory = pairsOf db.inventory ∧
      db2.sales = db.sales ∧
      db2.saleItems = db.saleItems ∧
      (∀ s ∈ db2.sales, s.id ≠ sid) ∧
      (∀ it ∈ db2.saleItems, it.saleId ≠ sid) ∧
      db2.invTxs = db.invTxs ++ sale.items.map (saleTx sid now1)
        ++ (sale.items.map (itemRow sid)).map (returnTx sid now2) := by
  rcases create_sale_ok_elim db now1 sale sid db1 h1 with ⟨hsid, hval, hw⟩
  subst hsid
  have hpres : ∀ it ∈ sale.items, it.product_variant_id ∈ idsOf db.inventory := by
    intro it hit
    rcases validateItems_ok_all db sale.items hval it hit with ⟨inv, hfind, _⟩
    apply (findInvL_isSome db.inventory it.product_variant_id).mp
    rw [show findInvL db.inventory it.product_variant_id = some inv from hfind]
    rfl
  rcases writeSaleItems_spec db.nextSaleId now1 sale.items (dbWithSaleRow db sale)
      hnodup hpres with ⟨db1x, hwx, hP, hV, hS, hC, hNP, hNV, hNS, hSI, hTX, hIDS, hPAIRS⟩
  have hdb1 : db1x = db1 := Except.ok.inj (hwx.symm.trans hw)
  subst hdb1
  have hsales1 : db1x.sales = db.sales ++ [saleRowOf db sale] := hS
  have hitems1 : db1x.saleItems = db.saleItems ++ sale.items.map (itemRow db.nextSaleId) := hSI
  have htxs1 : db1x.invTxs = db.invTxs ++ sale.items.map (saleTx db.nextSaleId now1) := hTX
  have hids1 : idsOf db1x.inventory = idsOf db.inventory := hIDS
  have hpairs1 : pairsOf db1x.inventory = adjMany (pairsOf db.inventory)
      (sale.items.map (fun it => (it.product_variant_id, -it.quantity))) := hPAIRS
  have hvar1 : db1x.variants = db.variants := hV
  have hprod1 : db1x.products = db.products := hP
  have hold : ∀ s ∈ db.sales, s.id ≠ db.nextSaleId := by
    intro s hs
    exact Nat.ne_of_lt (hfresh.1 s hs)
  have hfindsale : db1x.sales.find? (fun s => s.id == db.nextSaleId) =
      some (saleRowOf db sale) := by
    rw [hsales1]
    exact find?_fresh_append db.sales (saleRowOf db sale) db.nextSaleId rfl hold
  have holdit : ∀ it ∈ db.saleItems, it.saleId ≠ db.nextSaleId := by
    intro it hit
    exact Nat.ne_of_lt (hfresh.2 it hit)
  have hnewit : ∀ it ∈ sale.items.map (itemRow db.nextSaleId), it.saleId = db.nextSaleId := by
    intro it hit
    rcases List.mem_map.1 hit with ⟨x, _, hx⟩
    rw [← hx]
    rfl
  have hinfo1 : ∀ it ∈ sale.items.map (itemRow db.nextSaleId),
      (variantInfo db1x it.variantId).isSome := by
    intro it hit
    rcases List.mem_map.1 hit with ⟨x, hxmem, hx⟩
    rw [← hx, variantInfo_congr db1x db hvar1 hprod1]
    exact hinfo x hxmem
  have hload : loadSaleItems db1x db.nextSaleId = sale.items.map (itemRow db.nextSaleId) :=
    loadSaleItems_fresh db1x db.saleItems (sale.items.map (itemRow db.nextSaleId))
      db.nextSaleId hitems1 holdit hnewit hinfo1
  have hnod1 : (idsOf db1x.inventory).Nodup := by
    rw [hids1]; exact hnodup
  have hpres1 : ∀ it ∈ sale.items.map (itemRow db.nextSaleId),
      it.variantId ∈ idsOf db1x.inventory := by
    intro it hit
    rcases List.mem_map.1 hit with ⟨x, hxmem, hx⟩
    rw [← hx, hids1]
    exact hpres x hxmem
  rcases restoreItems_spec db.nextSaleId now2 (sale.items.map (itemRow db.nextSaleId))
      db1x hnod1 hpres1 with ⟨db1r, hr, rP, rV, rS, rC, rNP, rNV, rNS, rSI, rTX, rIDS, rPAIRS⟩
  refine ⟨{ db1r with
      saleItems := db1r.saleItems.filter (fun it => !(it.saleId == db.nextSaleId)),
      sales := db1r.sales.filter (fun s => !(s.id == db.nextSaleId)) }, ?_, ?_, ?_, ?_, ?_, ?_, ?_⟩
  · unfold cancel_sale
    rw [hfindsale]
    simp only
    rw [hload, hr]
  · show pairsOf db1r.inventory = pairsOf db.inventory
    rw [rPAIRS, hpairs1]
    have hrows : (sale.items.map (itemRow db.nextSaleId)).map
        (fun it => (it.variantId, it.quantity)) =
        sale.items.map (fun it => (it.product_variant_id, it.quantity)) := by
      rw [List.map_map]
      apply List.map_congr_left
      intro x _
      rfl
    have hnegs : sale.items.map (fun it => (it.product_variant_id, -it.quantity)) =
        negsP (sale.items.map (fun it => (it.product_variant_id, it.quantity))) := by
      unfold negsP
      rw [List.map_map]
      apply List.map_congr_left
      intro x _
      rfl
    rw [hrows, hnegs]
    have hcancel := adjMany_neg_cancel
      (negsP (sale.items.map (fun it => (it.product_variant_id, it.quantity))))
      (pairsOf db.inventory)
    rw [negsP_negsP] at hcancel
    exact hcancel
  · show db1r.sales.filter (fun s => !(s.id == db.nextSaleId)) = db.sales
    rw [rS, hsales1]
    exact filter_fresh_append_sales db.sales (saleRowOf db sale) db.nextSaleId rfl hold
  · show db1r.saleItems.filter (fun it => !(it.saleId == db.nextSaleId)) = db.saleItems
    rw [rSI, hitems1]
    exact filter_fresh_append_items db.saleItems (sale.items.map (itemRow db.nextSaleId))
      db.nextSaleId holdit hnewit
  · intro s hs
    have hs2 : s ∈ db.sales := by
      have heq : db1r.sales.filter (fun s => !(s.id == db.nextSaleId)) = db.sales := by
        rw [rS, hsales1]
        exact filter_fresh_append_sales db.sales (saleRowOf db sale) db.nextSaleId rfl hold
      rw [show ({ db1r with
          saleItems := db1r.saleItems.filter (fun it => !(it.saleId == db.nextSaleId)),
          sales := db1r.sales.filter (fun s => !(s.id == db.nextSaleId)) } : DB).sales =
        db1r.sales.filter (fun s => !(s.id == db.nextSaleId)) from rfl, heq] at hs
      exact hs
    exact hold s hs2
  · intro it hit
    have hit2 : it ∈ db.saleItems := by
      have heq : db1r.saleItems.filter (fun it => !(it.saleId == db.nextSaleId)) =
          db.saleItems := by
        rw [rSI, hitems1]
        exact filter_fresh_append_items db.saleItems (sale.items.map (itemRow db.nextSaleId))
          db.nextSaleId holdit hnewit
      rw [show ({ db1r with
          saleItems := db1r.saleItems.filter (fun it => !(it.saleId == db.nextSaleId)),
          sales := db1r.sales.filter (fun s => !(s.id == db.nextSaleId)) } : DB).saleItems =
        db1r.saleItems.filter (fun it => !(it.saleId == db.nextSaleId)) from rfl, heq] at hit
      exact hit
    exact holdit it hit2
  · show db1r.invTxs = db.invTxs ++ sale.items.map (saleTx db.nextSaleId now1)
      ++ (sale.items.map (itemRow db.nextSaleId)).map (returnTx db.nextSaleId now2)
    rw [rTX, htxs1]

/-- Witness for C3: the Scenario-A sale (4 of variant 1 from stock 10)
followed by its cancellation restores the store. -/
theorem C3_witness :
    ∃ db2, cancel_sale exDBsold 3 1 = .ok db2 ∧
      pairsOf db2.inventory = pairsOf exDB10.inventory ∧
      db2.sales = exDB10.sales ∧
      db2.saleItems = exDB10.saleItems ∧
      (∀ s ∈ db2.sales, s.id ≠ 1) ∧
      (∀ it ∈ db2.saleItems, it.saleId ≠ 1) ∧
      db2.invTxs = exDB10.invTxs ++ exSaleOK.items.map (saleTx 1 2)
        ++ (exSaleOK.items.map (itemRow 1)).map (returnTx 1 3) :=
  C3_round_trip exDB10 2 3 exSaleOK 1 exDBsold (by decide) (by decide) (by decide) rfl

end Store
